import Mathlib

/-!
# Verification of the transcript-to-trace reconstruction engine

Shallow embedding of `src/assets/agent-hooks/claude-code/langfuse-hook.py`:
the transcript parser, activity classifier, deterministic id generator,
timestamp reconciler and background-task correlator, together with theorems
settling the specification claims about them.

Conventions of the embedding:
* Python values arriving from `json.loads` are modelled by `PyVal`
  (JSON numbers are modelled as integers; floats are out of scope since no
  claim depends on fractional arithmetic).
* Fallible Python code (statements that can raise) is modelled in
  `Except String`; the error string names the Python exception class.
* Python character classes `\s`, `\S`, `\w`, `[a-zA-Z0-9]` are modelled at
  their ASCII meaning, which is exact for every input the theorems touch.
-/

namespace LangfuseHook

/-- A Python value as produced by `json.loads` (plus `None` for absent
fields).  Dictionaries are association lists with string keys, which is the
shape `json.loads` produces. -/
inductive PyVal where
  | none
  | bool (b : Bool)
  | num (n : Int)
  | str (s : String)
  | list (xs : List PyVal)
  | dict (kvs : List (String × PyVal))
deriving Repr

/-- Python truthiness: `bool(v)` for the values `PyVal` can hold. -/
def pyTruthy : PyVal → Bool
  | .none => false
  | .bool b => b
  | .num n => n != 0
  | .str s => s ≠ ""
  | .list xs => !xs.isEmpty
  | .dict kvs => !kvs.isEmpty

/-- First binding of a key in an association-list dictionary (Python dicts
have unique keys, so first match is exact). -/
def dictLookup : List (String × PyVal) → String → Option PyVal
  | [], _ => Option.none
  | (k, v) :: rest, key => if k = key then some v else dictLookup rest key

/-- `d.get(key, default)`: raises `AttributeError` when the receiver is not a
dictionary (matching Python attribute lookup of `.get`). -/
def pyGetD : PyVal → String → PyVal → Except String PyVal
  | .dict kvs, key, dflt => .ok ((dictLookup kvs key).getD dflt)
  | _, _, _ => .error "AttributeError"

/-- `d.get(key)` (default `None`). -/
def pyGet (v : PyVal) (key : String) : Except String PyVal :=
  pyGetD v key .none

/-- Is this value the Python string `s`?  Models `v == "s"` for a string
literal `s` (equality with a non-string Python value is `False`). -/
def isStrV : PyVal → String → Bool
  | .str a, b => a = b
  | _, _ => false

/-- Python iteration `for block in content`: lists yield their elements,
dictionaries yield their keys, strings yield their characters (as one-char
strings); other values raise `TypeError`. -/
def pyIterate : PyVal → Except String (List PyVal)
  | .list xs => .ok xs
  | .dict kvs => .ok (kvs.map (fun kv => PyVal.str kv.1))
  | .str s => .ok (s.data.map (fun c => PyVal.str (String.singleton c)))
  | _ => .error "TypeError: not iterable"

/-- `"\n".join(parts)`: every part must be a string, else `TypeError`. -/
def pyJoin : List PyVal → Except String String
  | [] => .ok ""
  | v :: rest =>
      match v with
      | .str s =>
          match rest with
          | [] => .ok s
          | _ :: _ => do
              let tail ← pyJoin rest
              .ok (s ++ "\n" ++ tail)
      | _ => .error "TypeError: sequence item is not str"

/-- Is the value a Python string? -/
def isStrPy : PyVal → Bool
  | .str _ => true
  | _ => false

/-- Hashability of a Python value (usable as a dictionary key): lists and
dictionaries are unhashable. -/
def pyHashable : PyVal → Bool
  | .list _ => false
  | .dict _ => false
  | _ => true

/-- Structural equality of the hashable (scalar) values, used for dictionary
keys.  (All keys the program ever inserts are strings.) -/
def keyEq : PyVal → PyVal → Bool
  | .none, .none => true
  | .bool a, .bool b => a = b
  | .num a, .num b => a = b
  | .str a, .str b => a = b
  | _, _ => false

/-- `d[key] = v` on an association list: replace the binding if the key is
present, else append (Python dict insertion order). -/
def dictSet (m : List (PyVal × PyVal)) (key v : PyVal) : List (PyVal × PyVal) :=
  if m.any (fun kv => keyEq kv.1 key) then
    m.map (fun kv => if keyEq kv.1 key then (kv.1, v) else kv)
  else m ++ [(key, v)]

/-- Lookup in a `PyVal`-keyed association list (`tool_results.get(id)`). -/
def dictFind (m : List (PyVal × PyVal)) (key : PyVal) : PyVal :=
  match m.find? (fun kv => keyEq kv.1 key) with
  | some kv => kv.2
  | Option.none => .none

mutual
/-- Python `str(v)` (as used inside f-strings).  Exact for the scalar values;
for containers it follows `repr` without string escaping, which no theorem
relies on. -/
def pyStr : PyVal → String
  | .none => "None"
  | .bool true => "True"
  | .bool false => "False"
  | .num n => toString n
  | .str s => s
  | .list xs => "[" ++ String.intercalate ", " (pyReprList xs) ++ "]"
  | .dict kvs => "\x7b" ++ String.intercalate ", " (pyReprKVs kvs) ++ "\x7d"

/-- `repr` of a value (strings quoted). -/
def pyRepr : PyVal → String
  | .str s => "'" ++ s ++ "'"
  | v => pyStr v

/-- `repr` of the elements of a list. -/
def pyReprList : List PyVal → List String
  | [] => []
  | v :: rest => pyRepr v :: pyReprList rest

/-- `repr` of the bindings of a dictionary. -/
def pyReprKVs : List (String × PyVal) → List String
  | [] => []
  | (k, v) :: rest => ("'" ++ k ++ "': " ++ pyRepr v) :: pyReprKVs rest
end

/-! ## A regular-expression engine for the classifier patterns

`re.search(pattern, command, re.IGNORECASE)` is modelled by a small
nondeterministic matcher over exactly the constructs the source patterns
use: character classes, concatenation, alternation, star of a character
class, option, `^`, `$` and `\b`.  Positions are represented as a reversed
prefix paired with the remaining suffix so the zero-width assertions can see
both neighbours. -/

/-- Regular expressions (the fragment used by the classifier patterns). -/
inductive Rgx where
  | eps
  | cls (p : Char → Bool)
  | cat (a b : Rgx)
  | alt (a b : Rgx)
  | starCls (p : Char → Bool)
  | option (a : Rgx)
  | bos
  | eol
  | wordBoundary

/-- Python `\s` at ASCII: space, tab, newline, carriage return, vertical tab,
form feed. -/
def pySpace (c : Char) : Bool :=
  c = ' ' ∨ c = '\t' ∨ c = '\n' ∨ c = '\r' ∨ c = '\x0b' ∨ c = '\x0c'

/-- Python `\w` at ASCII: letters, digits, underscore. -/
def pyWordChar (c : Char) : Bool :=
  ('a' ≤ c ∧ c ≤ 'z') ∨ ('A' ≤ c ∧ c ≤ 'Z') ∨ ('0' ≤ c ∧ c ≤ '9') ∨ c = '_'

/-- Word-character test on an optional neighbour (edge of string counts as
non-word). -/
def isWordO : Option Char → Bool
  | some c => pyWordChar c
  | Option.none => false

/-- All the ways a star of a character class can consume an initial segment
of the suffix. -/
def starSplits (p : Char → Bool) : List Char → List Char → List (List Char × List Char)
  | pre, [] => [(pre, [])]
  | pre, c :: rest =>
      (pre, c :: rest) :: (if p c then starSplits p (c :: pre) rest else [])

/-- Run a regex at a position; return every position reachable after a
match.  `pre` is the reversed prefix of consumed input. -/
def mrun : Rgx → List Char → List Char → List (List Char × List Char)
  | .eps, pre, post => [(pre, post)]
  | .cls p, pre, post =>
      match post with
      | c :: rest => if p c then [(c :: pre, rest)] else []
      | [] => []
  | .cat a b, pre, post =>
      (mrun a pre post).foldr (fun s acc => mrun b s.1 s.2 ++ acc) []
  | .alt a b, pre, post => mrun a pre post ++ mrun b pre post
  | .starCls p, pre, post => starSplits p pre post
  | .option a, pre, post => (pre, post) :: mrun a pre post
  | .bos, pre, post => if pre.isEmpty then [(pre, post)] else []
  | .eol, pre, post =>
      if post.isEmpty || post = ['\n'] then [(pre, post)] else []
  | .wordBoundary, pre, post =>
      if isWordO pre.head? ≠ isWordO post.head? then [(pre, post)] else []

/-- Does the regex match starting at this position or any later one? -/
def searchFrom (r : Rgx) : List Char → List Char → Bool
  | pre, post =>
      !(mrun r pre post).isEmpty ||
        (match post with
         | [] => false
         | c :: rest => searchFrom r (c :: pre) rest)

/-- `re.search(r, s) is not None` (pattern anchored nowhere). -/
def reSearch (r : Rgx) (s : String) : Bool :=
  searchFrom r [] s.data

/-- A case-insensitive literal character (the patterns are lower case and
compiled with `re.IGNORECASE`). -/
def ci (c : Char) : Rgx := .cls (fun x => x.toLower = c)

/-- A case-insensitive literal string. -/
def lit (s : String) : Rgx := (s.data.map ci).foldr .cat .eps

/-- Concatenation of a list of regexes. -/
def rcat (rs : List Rgx) : Rgx := rs.foldr .cat .eps

/-- Alternation of a list of regexes (empty list matches nothing, unused). -/
def ralt : List Rgx → Rgx
  | [] => .cls (fun _ => false)
  | [r] => r
  | r :: rest => .alt r (ralt rest)

/-- Alternation of case-insensitive literal words. -/
def words (ws : List String) : Rgx := ralt (ws.map lit)

/-- `\s+` -/
def wsp : Rgx := .cat (.cls pySpace) (.starCls pySpace)

/-- `\s*` -/
def wss : Rgx := .starCls pySpace

/-- `\b` -/
def wb : Rgx := .wordBoundary

/-- `\S` -/
def nonSpace : Rgx := .cls (fun c => !pySpace c)

/-! ## The classifier pattern lists (`classify_activity`, lines 132-221)

Each Lean term below transcribes one Python raw-string pattern, in list
order. -/

/-- `git_patterns` -/
def git_patterns : List Rgx :=
  [ rcat [wb, lit "git", wsp,
      words ["status", "diff", "log", "show", "branch", "checkout", "merge",
             "rebase", "pull", "fetch", "clone", "add", "commit", "push",
             "stash", "reset", "cherry-pick"]],
    rcat [wb, lit "gh", wsp] ]

/-- `test_patterns` -/
def test_patterns : List Rgx :=
  [ rcat [wb, lit "cargo", wsp, lit "nextest", wb],
    rcat [wb, lit "cargo-nextest", wb],
    rcat [wb, lit "nextest", wsp, words ["run", "list"], wb],
    rcat [wb, lit "cargo", wsp, lit "test", wb],
    rcat [wb, words ["pnpm", "npm", "yarn", "bun"], wsp,
          .option (rcat [lit "run", wsp]), lit "test", wb],
    rcat [wb, words ["pnpm", "npm", "yarn", "bun"], wsp, lit "exec", wsp,
          words ["jest", "vitest", "mocha"], wb],
    rcat [wb, lit "npx", wsp,
          words ["jest", "vitest", "mocha", "ava", "playwright"], wb],
    rcat [.bos, wss, lit "jest", .cls pySpace],
    rcat [lit "&&", wss, lit "jest", .cls pySpace],
    rcat [wb, lit "jest", wsp, lit "--"],
    rcat [wb, lit "vitest", .alt (.cls pySpace) .eol],
    rcat [wb, lit "mocha", .cls pySpace],
    rcat [wb, lit "ava", .cls pySpace],
    rcat [wb, lit "playwright", wsp, lit "test", wb],
    rcat [wb, lit "cypress", wsp, words ["run", "open"], wb],
    rcat [wb, lit "pytest", wb],
    rcat [wb, lit "python", wsp, lit "-m", wsp, words ["pytest", "unittest"], wb],
    rcat [wb, lit "uvx", wsp, lit "pytest", wb],
    rcat [wb, lit "go", wsp, lit "test", wb] ]

/-- `build_patterns` -/
def build_patterns : List Rgx :=
  [ rcat [wb, lit "cargo", wsp,
          words ["build", "check", "clippy", "fmt", "bench", "doc"], wb],
    rcat [wb, lit "rustfmt", wb],
    rcat [wb, words ["pnpm", "npm", "yarn", "bun"], wsp,
          .option (rcat [lit "run", wsp]),
          words ["build", "check", "lint", "typecheck", "format", "prettier",
                 "eslint"], wb],
    rcat [wb, words ["pnpm", "npm", "yarn", "bun"], wsp,
          words ["build", "check", "lint"], wb],
    rcat [wb, lit "npx", wsp, words ["tsc", "eslint", "prettier", "biome"], wb],
    rcat [wb, lit "tsc", .alt (.cls pySpace) .eol],
    rcat [wb, lit "eslint", .cls pySpace],
    rcat [wb, lit "prettier", .cls pySpace],
    rcat [wb, lit "biome", wsp, words ["check", "lint", "format"], wb],
    rcat [wb, lit "python", wsp, lit "-m", wsp,
          words ["mypy", "ruff", "black", "flake8", "isort"], wb],
    rcat [wb, lit "mypy", .cls pySpace],
    rcat [wb, lit "ruff", wsp, words ["check", "format"], wb],
    rcat [wb, lit "black", .cls pySpace],
    rcat [wb, lit "flake8", .cls pySpace],
    rcat [wb, lit "uvx", wsp, words ["mypy", "ruff", "black", "flake8"], wb],
    rcat [wb, lit "isort", .cls pySpace],
    rcat [wb, lit "go", wsp, words ["build", "vet", "fmt", "generate"], wb],
    rcat [wb, lit "golangci-lint", wb],
    rcat [.bos, wss, lit "make", .alt (.cls pySpace) .eol],
    rcat [lit "&&", wss, lit "make", .alt (.cls pySpace) .eol],
    rcat [wb, lit "make", wsp,
          words ["build", "test", "check", "lint", "all", "clean"], wb],
    rcat [wb, lit "docker", wsp, words ["build", "compose"], wb] ]

/-- `setup_patterns` -/
def setup_patterns : List Rgx :=
  [ rcat [wb, words ["pnpm", "npm", "yarn", "bun"], wsp,
          words ["install", "add", "remove", "update", "upgrade", "ci"], wb],
    rcat [wb, words ["pip", "uv"], wsp, lit "install", wb],
    rcat [wb, lit "uvx", wsp, nonSpace, .starCls (fun c => !pySpace c)],
    rcat [wb, lit "cargo", wsp, words ["add", "remove", "update"], wb],
    rcat [wb, lit "go", wsp,
          .alt (lit "get")
               (rcat [lit "mod", wsp, words ["download", "tidy"]]), wb],
    rcat [wb, lit "docker", wsp,
          words ["pull", "run", "start", "stop", "rm", "exec"], wb],
    rcat [.bos, wss, words ["chmod", "mkdir", "cp", "mv"], .cls pySpace],
    rcat [lit "&&", wss, words ["chmod", "mkdir", "cp", "mv"], .cls pySpace] ]

/-- Does any pattern of the group match the command? -/
def matchesAny (ps : List Rgx) (command : String) : Bool :=
  ps.any (fun p => reSearch p command)

/-- The `Bash`-command branch of `classify_activity` (lines 132-224): the
pattern groups are tried in the order GIT, TEST, BUILD, SETUP; first group
with a matching pattern wins, else `OTHER`. -/
def bashClassify (command : String) : String :=
  if matchesAny git_patterns command then "GIT"
  else if matchesAny test_patterns command then "TEST"
  else if matchesAny build_patterns command then "BUILD"
  else if matchesAny setup_patterns command then "SETUP"
  else "OTHER"

/-- `classify_activity(tool_name, tool_input)` (lines 94-224).
`tool_input` is any Python value (`dict | None` per the annotation, but the
code is reached with whatever the log held).  Raises (models the uncaught
`TypeError` from `re.search`) when the tool is `Bash` and the command value
is not a string, and (models `AttributeError`) when the tool is `Bash` and
the input is truthy but not a dictionary. -/
def classify_activity (tool_name : String) (tool_input : PyVal) : Except String String :=
  -- `tool_input = tool_input or \x7b\x7d` is evaluated at entry in the
  -- source; the value is consumed only in the `Bash` branch, where it is
  -- written out below.
  if tool_name ∈ ["Edit", "Write", "NotebookEdit"] then .ok "CODE"
  else if tool_name ∈ ["TodoWrite", "EnterPlanMode", "ExitPlanMode"] then .ok "PLAN"
  else if tool_name ∈ ["AskUserQuestion"] then .ok "COMMUNICATE"
  else if tool_name ∈ ["WebSearch", "WebFetch"] then .ok "RESEARCH"
  else if tool_name ∈ ["Read", "Glob", "Grep", "LSP", "LS", "Task",
                       "ListMcpResourcesTool", "ReadMcpResourceTool"] then .ok "EXPLORE"
  else if tool_name = "Bash" then
    match pyGetD (if pyTruthy tool_input then tool_input else PyVal.dict [])
            "command" (.str "") with
    | .error e => .error e
    | .ok (.str command) => .ok (bashClassify command)
    | .ok _ => .error "TypeError: expected string or bytes-like object"
  else .ok "OTHER"

/-- The ten activity kinds, in the order the counter dictionary initialises
them (lines 367-378). -/
def activityKinds : List String :=
  ["CODE", "BUILD", "TEST", "GIT", "EXPLORE", "RESEARCH", "SETUP", "PLAN",
   "COMMUNICATE", "OTHER"]

/-- `classify_activity` as invoked by the parser, where the `name` field of a
`tool_use` block can be any Python value: non-string hashable names fall
through every membership test and the `== "Bash"` comparison to `OTHER`;
unhashable names raise `TypeError` at the first set-membership test. -/
def classifyVal (tool_name tool_input : PyVal) : Except String String :=
  match tool_name with
  | .str s => classify_activity s tool_input
  | .list _ => .error "TypeError: unhashable type"
  | .dict _ => .error "TypeError: unhashable type"
  | _ => .ok "OTHER"

/-! ## SHA-256 and `generate_deterministic_id` (lines 512-527)

`hashlib.sha256(seed.encode()).hexdigest()[:32]` is embedded by a full
implementation of FIPS 180-4 SHA-256 over byte lists, with 32-bit words
represented as `Nat` reduced modulo `2 ^ 32`, plus the UTF-8 encoder for
`str.encode()`. -/

/-- `2 ^ 32`. -/
def M32 : Nat := 4294967296

/-- Truncated addition of a list of 32-bit words. -/
def add32 (xs : List Nat) : Nat := xs.sum % M32

/-- Right rotation of a 32-bit word. -/
def rotr (n x : Nat) : Nat := ((x >>> n) ||| (x <<< (32 - n))) % M32

/-- Bitwise complement of a 32-bit word. -/
def compl32 (x : Nat) : Nat := x ^^^ (M32 - 1)

/-- SHA-256 `Ch`. -/
def shaCh (e f g : Nat) : Nat := (e &&& f) ^^^ (compl32 e &&& g)

/-- SHA-256 `Maj`. -/
def shaMaj (a b c : Nat) : Nat := (a &&& b) ^^^ (a &&& c) ^^^ (b &&& c)

/-- SHA-256 `Σ0`. -/
def bigSigma0 (x : Nat) : Nat := rotr 2 x ^^^ rotr 13 x ^^^ rotr 22 x

/-- SHA-256 `Σ1`. -/
def bigSigma1 (x : Nat) : Nat := rotr 6 x ^^^ rotr 11 x ^^^ rotr 25 x

/-- SHA-256 `σ0`. -/
def smallSigma0 (x : Nat) : Nat := rotr 7 x ^^^ rotr 18 x ^^^ (x >>> 3)

/-- SHA-256 `σ1`. -/
def smallSigma1 (x : Nat) : Nat := rotr 17 x ^^^ rotr 19 x ^^^ (x >>> 10)

/-- The eight working variables / hash state. -/
structure Sha8 where
  a : Nat
  b : Nat
  c : Nat
  d : Nat
  e : Nat
  f : Nat
  g : Nat
  h : Nat

/-- Initial hash value H(0). -/
def shaInit : Sha8 :=
  ⟨1779033703, 3144134277, 1013904242, 2773480762,
   1359893119, 2600822924, 528734635, 1541459225⟩

/-- Round constants K. -/
def shaK : List Nat :=
  [1116352408, 1899447441, 3049323471, 3921009573, 961987163, 1508970993,
   2453635748, 2870763221, 3624381080, 310598401, 607225278, 1426881987,
   1925078388, 2162078206, 2614888103, 3248222580, 3835390401, 4022224774,
   264347078, 604807628, 770255983, 1249150122, 1555081692, 1996064986,
   2554220882, 2821834349, 2952996808, 3210313671, 3336571891, 3584528711,
   113926993, 338241895, 666307205, 773529912, 1294757372, 1396182291,
   1695183700, 1986661051, 2177026350, 2456956037, 2730485921, 2820302411,
   3259730800, 3345764771, 3516065817, 3600352804, 4094571909, 275423344,
   430227734, 506948616, 659060556, 883997877, 958139571, 1322822218,
   1537002063, 1747873779, 1955562222, 2024104815, 2227730452, 2361852424,
   2428436474, 2756734187, 3204031479, 3329325298]

/-- Big-endian 64-bit length encoding (8 bytes). -/
def be64 (n : Nat) : List Nat :=
  [n >>> 56 &&& 255, n >>> 48 &&& 255, n >>> 40 &&& 255, n >>> 32 &&& 255,
   n >>> 24 &&& 255, n >>> 16 &&& 255, n >>> 8 &&& 255, n &&& 255]

/-- SHA-256 padding: append `0x80`, zero bytes to 56 mod 64, then the
message bit length as 8 big-endian bytes. -/
def shaPad (msg : List Nat) : List Nat :=
  msg ++ 0x80 :: List.replicate ((55 + 64 - msg.length % 64) % 64) 0
      ++ be64 (8 * msg.length)

/-- Split a byte list into 64-byte chunks. -/
def chunks64 (l : List Nat) : List (List Nat) :=
  if l.isEmpty then [] else l.take 64 :: chunks64 (l.drop 64)
termination_by l.length
decreasing_by
  simp only [List.length_drop]
  cases l with
  | nil => simp [List.isEmpty] at *
  | cons c cs => simp only [List.length_cons]; omega

/-- The first 16 words of the message schedule, from the chunk bytes. -/
def wInit (chunk : List Nat) : List Nat :=
  (List.range 16).map (fun i =>
    chunk.getD (4 * i) 0 <<< 24 ||| chunk.getD (4 * i + 1) 0 <<< 16 |||
    chunk.getD (4 * i + 2) 0 <<< 8 ||| chunk.getD (4 * i + 3) 0)

/-- One schedule extension step over the reversed schedule list
(`w.getD 0 0` is w(t-1), `w.getD 15 0` is w(t-16)). -/
def wStep (w : List Nat) : Nat :=
  add32 [w.getD 15 0, smallSigma0 (w.getD 14 0), w.getD 6 0,
         smallSigma1 (w.getD 1 0)]

/-- Extend the reversed schedule by `k` further words. -/
def wExtend (w : List Nat) : Nat → List Nat
  | 0 => w
  | k + 1 => wExtend (wStep w :: w) k

/-- The 64-word message schedule of a chunk, in forward order. -/
def schedule (chunk : List Nat) : List Nat :=
  (wExtend (wInit chunk).reverse 48).reverse

/-- One compression round. -/
def shaRound (st : Sha8) (wk : Nat × Nat) : Sha8 :=
  let t1 := add32 [st.h, bigSigma1 st.e, shaCh st.e st.f st.g, wk.2, wk.1]
  let t2 := add32 [bigSigma0 st.a, shaMaj st.a st.b st.c]
  ⟨add32 [t1, t2], st.a, st.b, st.c, add32 [st.d, t1], st.e, st.f, st.g⟩

/-- Compress one 64-byte chunk into the running hash state. -/
def shaCompress (h0 : Sha8) (chunk : List Nat) : Sha8 :=
  let st := ((schedule chunk).zip shaK).foldl shaRound h0
  ⟨add32 [h0.a, st.a], add32 [h0.b, st.b], add32 [h0.c, st.c],
   add32 [h0.d, st.d], add32 [h0.e, st.e], add32 [h0.f, st.f],
   add32 [h0.g, st.g], add32 [h0.h, st.h]⟩

/-- The eight 32-bit digest words of a byte message. -/
def sha256Words (msg : List Nat) : Sha8 :=
  (chunks64 (shaPad msg)).foldl shaCompress shaInit

/-- The sixteen lower-case hexadecimal digits. -/
def hexChars : List Char := "0123456789abcdef".data

/-- One hexadecimal digit character. -/
def hexDigit (n : Nat) : Char := hexChars.getD n '0'

/-- Eight hex characters of one 32-bit word (big-endian nibbles). -/
def wordHex (w : Nat) : List Char :=
  [hexDigit (w >>> 28 &&& 15), hexDigit (w >>> 24 &&& 15),
   hexDigit (w >>> 20 &&& 15), hexDigit (w >>> 16 &&& 15),
   hexDigit (w >>> 12 &&& 15), hexDigit (w >>> 8 &&& 15),
   hexDigit (w >>> 4 &&& 15), hexDigit (w &&& 15)]

/-- `hashlib.sha256(msg).hexdigest()` as a character list. -/
def sha256Hex (msg : List Nat) : List Char :=
  let d := sha256Words msg
  wordHex d.a ++ wordHex d.b ++ wordHex d.c ++ wordHex d.d ++ wordHex d.e ++
  wordHex d.f ++ wordHex d.g ++ wordHex d.h

/-- UTF-8 encoding of one character (`str.encode()`). -/
def utf8Char (c : Char) : List Nat :=
  let n := c.toNat
  if n < 0x80 then [n]
  else if n < 0x800 then [0xc0 + n / 64, 0x80 + n % 64]
  else if n < 0x10000 then
    [0xe0 + n / 4096, 0x80 + n / 64 % 64, 0x80 + n % 64]
  else
    [0xf0 + n / 0x40000, 0x80 + n / 4096 % 64, 0x80 + n / 64 % 64,
     0x80 + n % 64]

/-- `seed.encode()`: UTF-8 bytes of a string. -/
def utf8Encode (s : String) : List Nat := (s.data.map utf8Char).flatten

/-- `generate_deterministic_id(seed, prefix)` (lines 512-527): the first 32
hex characters of the SHA-256 digest of the UTF-8 encoded seed.  The second
argument (the optional `prefix`, default `""`) is accepted and ignored,
exactly as in the source, where it is documented as "not included in ID". -/
def generate_deterministic_id (seed : String) (pfx : String) : String :=
  let _ := pfx
  String.mk ((sha256Hex (utf8Encode seed)).take 32)

/-! ## Timestamps (`parse_iso_timestamp`, lines 530-543)

Instants are modelled as `Time := Int`, seconds since the Unix epoch.
`datetime.fromisoformat` (standard library, external to the repository) is
modelled on the sub-grammar
`YYYY-MM-DD(T| )HH:MM:SS[.digits][(+|-)HH:MM]`, which covers every
timestamp the transcript format carries; fractional seconds are parsed and
discarded (sub-second resolution is not load-bearing for any claim).  A
naive datetime is assumed UTC, matching the explicit
`dt.replace(tzinfo=timezone.utc)` in the source. -/

/-- Instants: seconds since the Unix epoch. -/
abbrev Time := Int

/-- Days from 1970-01-01 to year `y`, month `m`, day `d` (proleptic
Gregorian; Howard Hinnant's civil-days algorithm). -/
def daysFromCivil (y m d : Nat) : Time :=
  let y' := if m ≤ 2 then y - 1 else y
  let era := y' / 400
  let yoe := y' % 400
  let mp := (m + 9) % 12
  let doy := (153 * mp + 2) / 5 + d - 1
  let doe := yoe * 365 + yoe / 4 - yoe / 100 + doy
  (era * 146097 + doe : Int) - 719468

/-- Read exactly `k` decimal digits. -/
def readDigits : Nat → List Char → Option (Nat × List Char)
  | 0, cs => some (0, cs)
  | k + 1, c :: cs =>
      if c.isDigit then
        match readDigits k cs with
        | some (n, rest) => some ((c.toNat - 48) * 10 ^ k + n, rest)
        | Option.none => Option.none
      else Option.none
  | _ + 1, [] => Option.none

/-- Require a literal character. -/
def expectChar (c : Char) : List Char → Option (List Char)
  | x :: rest => if x = c then some rest else Option.none
  | [] => Option.none

/-- Optional fractional seconds: `.` followed by at least one digit
(discarded). -/
def skipFraction : List Char → Option (List Char)
  | '.' :: rest =>
      let digits := rest.takeWhile Char.isDigit
      if digits.isEmpty then Option.none else some (rest.drop digits.length)
  | cs => some cs

/-- Trailing UTC offset: empty (naive, treated as UTC), or `(+|-)HH:MM`.
Returns the offset in seconds. -/
def readOffset : List Char → Option Int
  | [] => some 0
  | sgn :: rest =>
      if sgn = '+' ∨ sgn = '-' then
        match readDigits 2 rest with
        | some (oh, rest1) =>
            match expectChar ':' rest1 with
            | some rest2 =>
                match readDigits 2 rest2 with
                | some (om, []) =>
                    if oh ≤ 23 ∧ om ≤ 59 then
                      some ((if sgn = '-' then -1 else 1) * (oh * 3600 + om * 60))
                    else Option.none
                | _ => Option.none
            | Option.none => Option.none
        | Option.none => Option.none
      else Option.none

/-- The date/time separator: `T` or a space. -/
def readSep : List Char → Option (List Char)
  | c :: rest => if c = 'T' ∨ c = ' ' then some rest else Option.none
  | [] => Option.none

/-- The time-of-day and offset part `HH:MM:SS[.digits][(+|-)HH:MM]`,
as seconds (including the negated offset). -/
def readClock (cs : List Char) : Option Int :=
  match readDigits 2 cs with
  | some (h, cs1) =>
      match expectChar ':' cs1 with
      | some cs2 =>
          match readDigits 2 cs2 with
          | some (mi, cs3) =>
              match expectChar ':' cs3 with
              | some cs4 =>
                  match readDigits 2 cs4 with
                  | some (sec, cs5) =>
                      match skipFraction cs5 with
                      | some cs6 =>
                          match readOffset cs6 with
                          | some off =>
                              if h ≤ 23 ∧ mi ≤ 59 ∧ sec ≤ 59 then
                                some ((h * 3600 + mi * 60 + sec : Int) - off)
                              else Option.none
                          | Option.none => Option.none
                      | Option.none => Option.none
                  | Option.none => Option.none
              | Option.none => Option.none
          | Option.none => Option.none
      | Option.none => Option.none
  | Option.none => Option.none

/-- Modelled from the standard library: `datetime.fromisoformat` on the
sub-grammar described above, then conversion of the (timezone-aware)
datetime to epoch seconds. -/
def fromisoformat? (s : String) : Option Time :=
  match readDigits 4 s.data with
  | some (y, cs1) =>
      match expectChar '-' cs1 with
      | some cs2 =>
          match readDigits 2 cs2 with
          | some (mo, cs3) =>
              match expectChar '-' cs3 with
              | some cs4 =>
                  match readDigits 2 cs4 with
                  | some (d, cs5) =>
                      match readSep cs5 with
                      | some cs6 =>
                          match readClock cs6 with
                          | some clock =>
                              if 1 ≤ mo ∧ mo ≤ 12 ∧ 1 ≤ d ∧ d ≤ 31 then
                                some (daysFromCivil y mo d * 86400 + clock)
                              else Option.none
                          | Option.none => Option.none
                      | Option.none => Option.none
                  | Option.none => Option.none
              | Option.none => Option.none
          | Option.none => Option.none
      | Option.none => Option.none
  | Option.none => Option.none

/-- `parse_iso_timestamp(ts)` (lines 530-543) applied to the Python value
stored in a timestamp field: falsy values give `None`; a string has `"Z"`
replaced by `"+00:00"` and is parsed, parse failure giving `None` (the
`ValueError` is caught); a truthy non-string raises `AttributeError` at
`ts.replace`, which the `except (ValueError, TypeError)` clause does not
catch. -/
def replaceZchars : List Char → List Char
  | [] => []
  | c :: rest =>
      if c = 'Z' then '+' :: '0' :: '0' :: ':' :: '0' :: '0' :: replaceZchars rest
      else c :: replaceZchars rest

/-- `ts.replace("Z", "+00:00")`: the pattern is a single character, so the
Python all-occurrences replacement is character-wise. -/
def replaceZ (s : String) : String := String.mk (replaceZchars s.data)

def parse_iso_timestamp (ts : PyVal) : Except String (Option Time) :=
  if !pyTruthy ts then .ok Option.none
  else match ts with
       | .str s => .ok (fromisoformat? (replaceZ s))
       | _ => .error "AttributeError"

/-- The pure view of a timestamp field used to state theorems: the parse
result on string values, `none` otherwise.  Agrees with
`parse_iso_timestamp` on every value that does not raise. -/
def tsOf : PyVal → Option Time
  | .str s => fromisoformat? (replaceZ s)
  | _ => Option.none

/-- A timestamp field that cannot make `parse_iso_timestamp` raise: truthy
values must be strings. -/
def tsSafe (v : PyVal) : Bool := !pyTruthy v || (match v with | .str _ => true | _ => false)

/-! ## The transcript parser (`parse_transcript`, lines 356-509) -/

/-- Is the value Python `None`? -/
def isNoneV : PyVal → Bool
  | .none => true
  | _ => false

/-- Token usage of one assistant message (the four counters extracted at
lines 479-484, each defaulting to 0). -/
structure Usage where
  input_tokens : Int
  output_tokens : Int
  cache_read_input_tokens : Int
  cache_creation_input_tokens : Int
deriving Repr

/-- One recorded tool call (lines 471-476). -/
structure ToolCall where
  tool_name : PyVal
  tool_input : PyVal
  tool_use_id : PyVal
  activity_kind : String
deriving Repr

/-- One turn: an assistant response paired with the pending user message
(lines 494-504). -/
structure Turn where
  user_message : PyVal
  user_timestamp : PyVal
  model : PyVal
  text_content : PyVal
  usage : Usage
  tool_calls : List ToolCall
  timestamp : PyVal
deriving Repr

/-- The parse result (lines 380-391). -/
structure ParseResult where
  cwd : PyVal
  git_branch : PyVal
  model : PyVal
  turns : List Turn
  tool_results : List (PyVal × PyVal)
  input_tokens : Int
  output_tokens : Int
  cache_read_input_tokens : Int
  cache_creation_input_tokens : Int
  activity_counts : List (String × Nat)
deriving Repr

/-- Parser state: the result being built plus the pending user message and
its timestamp (lines 397-398). -/
structure PState where
  res : ParseResult
  pending_user_message : PyVal
  pending_user_timestamp : PyVal
deriving Repr

/-- The activity counter dictionary pre-initialised with all ten kinds at 0
(lines 367-378). -/
def initCounts : List (String × Nat) := activityKinds.map (fun k => (k, 0))

/-- The empty parse result (lines 380-391). -/
def initResult : ParseResult :=
  ⟨.none, .none, .none, [], [], 0, 0, 0, 0, initCounts⟩

/-- Initial parser state. -/
def initState : PState := ⟨initResult, .none, .none⟩

/-- `activity_counts[kind] += 1`: raises `KeyError` when the key is absent
(it never is, since `classify_activity` only returns the ten initialised
kinds). -/
def incrCount (m : List (String × Nat)) (kind : String) : Except String (List (String × Nat)) :=
  if m.any (fun kv => kv.1 = kind) then
    .ok (m.map (fun kv => if kv.1 = kind then (kv.1, kv.2 + 1) else kv))
  else .error "KeyError"

/-- Accumulator of the user-entry content loop (lines 427-440). -/
structure UAcc where
  parts : List PyVal
  tool_results : List (PyVal × PyVal)

/-- One block of a user entry's content (lines 428-439): plain strings are
collected, `text` blocks contribute their text, `tool_result` blocks with a
truthy id are recorded in the tool-results table, everything else is
skipped. -/
def processUserBlock (acc : UAcc) (block : PyVal) : Except String UAcc :=
  match block with
  | .str s => .ok { acc with parts := acc.parts ++ [.str s] }
  | .dict kvs => do
      let bt ← pyGet (.dict kvs) "type"
      if isStrV bt "text" then do
        let t ← pyGetD (.dict kvs) "text" (.str "")
        .ok { acc with parts := acc.parts ++ [t] }
      else if isStrV bt "tool_result" then do
        let tid ← pyGet (.dict kvs) "tool_use_id"
        if pyTruthy tid then
          if pyHashable tid then do
            let content ← pyGet (.dict kvs) "content"
            .ok { acc with tool_results := dictSet acc.tool_results tid content }
          else .error "TypeError: unhashable type"
        else .ok acc
      else .ok acc
  | _ => .ok acc

/-- Accumulator of the assistant-entry content loop (lines 454-476). -/
structure AAcc where
  parts : List PyVal
  tool_calls : List ToolCall
  counts : List (String × Nat)

/-- One block of an assistant entry's content (lines 457-476): `block.get`
raises for non-dictionary blocks; `text` blocks contribute text; `tool_use`
blocks are classified, counted and recorded. -/
def processAssistantBlock (acc : AAcc) (block : PyVal) : Except String AAcc := do
  let bt ← pyGet block "type"
  if isStrV bt "text" then do
    let t ← pyGetD block "text" (.str "")
    .ok { acc with parts := acc.parts ++ [t] }
  else if isStrV bt "tool_use" then do
    let name ← pyGetD block "name" (.str "")
    let input ← pyGetD block "input" (.dict [])
    let kind ← classifyVal name input
    let counts' ← incrCount acc.counts kind
    let tid ← pyGet block "id"
    .ok { acc with
          tool_calls := acc.tool_calls ++ [⟨name, input, tid, kind⟩],
          counts := counts' }
  else .ok acc

/-- A usage counter value (`usage.get(key, 0)` later added to an `int`
total): numbers add, Python booleans count as 0/1, anything else raises
`TypeError` at the addition. -/
def usageVal (usage : PyVal) (key : String) : Except String Int := do
  match ← pyGetD usage key (.num 0) with
  | .num n => .ok n
  | .bool b => .ok (if b then 1 else 0)
  | _ => .error "TypeError: unsupported operand type for +"

/-- Join accumulated text parts: `"\n".join(parts) if parts else None`. -/
def joinParts (parts : List PyVal) : Except String PyVal :=
  if parts.isEmpty then .ok .none
  else do
    let s ← pyJoin parts
    .ok (.str s)

/-- The `summary` branch (lines 414-416), entered only while `cwd` is
`None`: assign both `cwd` and `git_branch` from this entry. -/
def processSummary (st : PState) (entry : PyVal) : Except String PState := do
  let cwd ← pyGet entry "cwd"
  let gb ← pyGet entry "git_branch"
  .ok { st with res := { st.res with cwd := cwd, git_branch := gb } }

/-- The `user` branch (lines 419-440). -/
def processUser (st : PState) (entry : PyVal) : Except String PState := do
  let message ← pyGetD entry "message" (.dict [])
  let content ← pyGetD message "content" (.list [])
  let ts ← pyGet entry "timestamp"
  match content with
  | .str s =>
      .ok { st with
            pending_user_message := if s = "" then .none else .str s,
            pending_user_timestamp := ts }
  | _ => do
      let blocks ← pyIterate content
      let acc ← blocks.foldlM processUserBlock ⟨[], st.res.tool_results⟩
      let pum ← joinParts acc.parts
      .ok { st with
            res := { st.res with tool_results := acc.tool_results },
            pending_user_message := pum,
            pending_user_timestamp := ts }

/-- The `assistant` branch (lines 443-507). -/
def processAssistant (st : PState) (entry : PyVal) : Except String PState := do
  let message ← pyGetD entry "message" (.dict [])
  let content ← pyGetD message "content" (.list [])
  let usage ← pyGetD message "usage" (.dict [])
  let model ← pyGet message "model"
  let res1 :=
    if pyTruthy model && isNoneV st.res.model then { st.res with model := model }
    else st.res
  let blocks ← pyIterate content
  let acc ← blocks.foldlM processAssistantBlock ⟨[], [], res1.activity_counts⟩
  let it ← usageVal usage "input_tokens"
  let ot ← usageVal usage "output_tokens"
  let cr ← usageVal usage "cache_read_input_tokens"
  let cc ← usageVal usage "cache_creation_input_tokens"
  let txt ← joinParts acc.parts
  let ts ← pyGet entry "timestamp"
  let turn : Turn :=
    ⟨st.pending_user_message, st.pending_user_timestamp, model, txt,
     ⟨it, ot, cr, cc⟩, acc.tool_calls, ts⟩
  .ok { st with
        res := { res1 with
                 activity_counts := acc.counts,
                 input_tokens := res1.input_tokens + it,
                 output_tokens := res1.output_tokens + ot,
                 cache_read_input_tokens := res1.cache_read_input_tokens + cr,
                 cache_creation_input_tokens := res1.cache_creation_input_tokens + cc,
                 turns := res1.turns ++ [turn] },
        pending_user_message := .none,
        pending_user_timestamp := .none }

/-- Process one successfully decoded JSON entry (lines 411-507): the
`summary` branch fills `cwd`/`git_branch` while `cwd` is `None`; the `user`
branch assembles the pending user message and records tool results; the
`assistant` branch classifies tool calls, accumulates totals and emits a
turn; anything else is ignored. -/
def processEntry (st : PState) (entry : PyVal) : Except String PState := do
  let entry_type ← pyGet entry "type"
  if isStrV entry_type "summary" && isNoneV st.res.cwd then
    processSummary st entry
  else if isStrV entry_type "user" then
    processUser st entry
  else if isStrV entry_type "assistant" then
    processAssistant st entry
  else .ok st

/-- One physical log line after `line.strip()` and `json.loads` (lines
400-409): either it was blank or failed to decode (skipped), or it decoded
to a value. -/
inductive Line where
  | malformed
  | entry (v : PyVal)

/-- Process one line: malformed lines are skipped, never fatal. -/
def processLine (st : PState) : Line → Except String PState
  | .malformed => .ok st
  | .entry v => processEntry st v

/-- The parse loop over all lines of an existing file. -/
def parseLines (lines : List Line) : Except String ParseResult := do
  let st ← lines.foldlM processLine initState
  .ok st.res

/-- `parse_transcript(path)` (lines 356-509).  The file system is an
explicit map from paths to decoded line lists; a path that does not name an
existing file returns the empty result without raising (line 394-395). -/
def parse_transcript (fs : String → Option (List Line)) (path : String) :
    Except String ParseResult :=
  match fs path with
  | Option.none => .ok initResult
  | some lines => parseLines lines

/-! ### Well-formedness of entries

`wfEntry` is the syntactic well-formedness predicate under which processing
an entry is guaranteed not to raise: the entry is a JSON object, its
message/content/usage fields have the shapes the code dereferences, every
assistant content block is an object, text values are strings, tool-result
ids are hashable, usage counters are numbers and tool names classify
without error. -/

/-- A value acceptable as a usage counter. -/
def numish : PyVal → Bool
  | .num _ => true
  | .bool _ => true
  | _ => false

/-- Well-formedness of one user content block. -/
def wfUserBlock : PyVal → Bool
  | .dict kvs =>
      let bt := (dictLookup kvs "type").getD .none
      if isStrV bt "text" then
        isStrPy ((dictLookup kvs "text").getD (.str ""))
      else if isStrV bt "tool_result" then
        let tid := (dictLookup kvs "tool_use_id").getD .none
        !pyTruthy tid || pyHashable tid
      else true
  | _ => true

/-- Well-formedness of one assistant content block. -/
def wfABlock : PyVal → Bool
  | .dict kvs =>
      let bt := (dictLookup kvs "type").getD .none
      if isStrV bt "text" then
        isStrPy ((dictLookup kvs "text").getD (.str ""))
      else if isStrV bt "tool_use" then
        (classifyVal ((dictLookup kvs "name").getD (.str ""))
          ((dictLookup kvs "input").getD (.dict []))).isOk
      else true
  | _ => false

/-- Well-formedness of an assistant usage dictionary. -/
def wfUsage : PyVal → Bool
  | .dict kvs =>
      ["input_tokens", "output_tokens", "cache_read_input_tokens",
       "cache_creation_input_tokens"].all
        (fun k => numish ((dictLookup kvs k).getD (.num 0)))
  | _ => false

/-- Well-formedness of a user entry's content value: a plain string is
taken as-is; an iterable yields blocks that must each be well-formed;
anything else would raise `TypeError` at iteration. -/
def wfUserContent : PyVal → Bool
  | .str _ => true
  | .list xs => xs.all wfUserBlock
  | .dict ckvs => (ckvs.map (fun kv => PyVal.str kv.1)).all wfUserBlock
  | _ => false

/-- Well-formedness of a user entry's message value. -/
def wfUserMessage : PyVal → Bool
  | .dict mkvs => wfUserContent ((dictLookup mkvs "content").getD (.list []))
  | _ => false

/-- Well-formedness of an assistant entry's content value (every iterated
block must be well-formed — in particular a dictionary, since the
assistant loop calls `.get` on each block). -/
def wfAssistantContent : PyVal → Bool
  | .str s => (s.data.map (fun c => PyVal.str (String.singleton c))).all wfABlock
  | .list xs => xs.all wfABlock
  | .dict ckvs => (ckvs.map (fun kv => PyVal.str kv.1)).all wfABlock
  | _ => false

/-- Well-formedness of an assistant entry's message value. -/
def wfAssistantMessage : PyVal → Bool
  | .dict mkvs =>
      wfUsage ((dictLookup mkvs "usage").getD (.dict [])) &&
      wfAssistantContent ((dictLookup mkvs "content").getD (.list []))
  | _ => false

/-- Well-formedness of one decoded log entry. -/
def wfEntry : PyVal → Bool
  | .dict kvs =>
      let t := (dictLookup kvs "type").getD .none
      if isStrV t "user" then
        wfUserMessage ((dictLookup kvs "message").getD (.dict []))
      else if isStrV t "assistant" then
        wfAssistantMessage ((dictLookup kvs "message").getD (.dict []))
      else true
  | _ => false

/-- Well-formedness of a line: malformed lines are always acceptable (they
are skipped); decoded entries must be well-formed. -/
def wfLine : Line → Bool
  | .malformed => true
  | .entry v => wfEntry v

/-- The number of decoded entries of type `assistant` in a line list. -/
def countAssistant (lines : List Line) : Nat :=
  lines.countP (fun l =>
    match l with
    | .entry (.dict kvs) => isStrV ((dictLookup kvs "type").getD .none) "assistant"
    | _ => false)

/-- Sum of the values of the activity-counter dictionary. -/
def sumCounts (m : List (String × Nat)) : Nat := (m.map (fun kv => kv.2)).sum

/-- Total number of tool calls recorded across a list of turns. -/
def totalToolCalls (turns : List Turn) : Nat :=
  (turns.map (fun t => t.tool_calls.length)).sum

/-! ## Background-task extraction (lines 227-290) -/

/-- The literal part of the background-start marker pattern
`Command running in background with ID:\s*([a-zA-Z0-9]+)`. -/
def markerChars : List Char := "Command running in background with ID:".data

/-- Match a literal character list at the head of the input, returning the
rest. -/
def litPrefix? : List Char → List Char → Option (List Char)
  | [], cs => some cs
  | l :: ls, c :: cs => if c = l then litPrefix? ls cs else Option.none
  | _ :: _, [] => Option.none

/-- Try the marker pattern at one position: the literal, then `\s*`, then a
non-empty (greedy, hence maximal) alphanumeric run — the captured group. -/
def markerAt? (cs : List Char) : Option String :=
  match litPrefix? markerChars cs with
  | some rest =>
      let rest2 := rest.dropWhile (fun c => pySpace c)
      let run := rest2.takeWhile Char.isAlphanum
      if run.isEmpty then Option.none else some (String.mk run)
  | Option.none => Option.none

/-- `re.search` of the marker pattern: leftmost position at which the whole
pattern matches, returning the captured task id. -/
def findMarker : List Char → Option String
  | [] => Option.none
  | c :: cs =>
      match markerAt? (c :: cs) with
      | some r => some r
      | Option.none => findMarker cs

/-- `extract_background_task_id(tool_output)` (lines 227-266): normalise the
tool output to text (plain string, list of content blocks, or a single
`text` block) and search for the background-start marker.  A non-string
`text` value raises (`TypeError` at `"\n".join` for list blocks, at
`re.search` for a single block). -/
def extract_background_task_id (tool_output : PyVal) : Except String (Option String) :=
  match tool_output with
  | .none => .ok Option.none
  | .str s => .ok (findMarker s.data)
  | .list blocks => do
      let parts := blocks.foldl
        (fun acc b =>
          match b with
          | .str s => acc ++ [PyVal.str s]
          | .dict kvs =>
              if isStrV ((dictLookup kvs "type").getD .none) "text" then
                acc ++ [(dictLookup kvs "text").getD (.str "")]
              else acc
          | _ => acc) []
      let s ← pyJoin parts
      .ok (findMarker s.data)
  | .dict kvs =>
      if isStrV ((dictLookup kvs "type").getD .none) "text" then
        match (dictLookup kvs "text").getD (.str "") with
        | .str s => .ok (findMarker s.data)
        | _ => .error "TypeError: expected string or bytes-like object"
      else .ok Option.none
  | _ => .ok Option.none

/-- `extract_task_output_info(tool_name, tool_input)` (lines 269-290):
`(None, False)` unless the tool is `TaskOutput`; otherwise the `task_id`
value and the `block` value (default `True`).  The equality test with the
string `"TaskOutput"` is `False` for non-string tool names. -/
def extract_task_output_info (tool_name tool_input : PyVal) :
    Except String (PyVal × PyVal) :=
  if !(isStrV tool_name "TaskOutput") then .ok (.none, .bool false)
  else do
    let ti := if pyTruthy tool_input then tool_input else PyVal.dict []
    let task_id ← pyGet ti "task_id"
    let block ← pyGetD ti "block" (.bool true)
    .ok (task_id, block)

/-! ## The trace assembler (`send_to_langfuse`, lines 546-865)

Only the pure event-construction core is embedded: the Langfuse client,
credential lookup, environment context merging, tags and the trace-metadata
dictionary are external collaborators with no bearing on any claim.  Random
`uuid.uuid4()` identifiers (the per-request event ids, and the span id used
when `tool_use_id` is falsy) are modelled as `Option.none` record ids —
"fresh, not deterministic". -/

/-- A background task started but not yet completed (lines 706-715). -/
structure PendingTask where
  bash_tool_use_id : PyVal
  generation_id : String
  activity_kind : String
  tool_name : PyVal
  start_time : Time
  command : PyVal
deriving Repr

/-- Body of the trace-create event (lines 688-698; advisory metadata and
tags omitted). -/
structure TraceBody where
  id : String
  input : PyVal
  output : PyVal
  timestamp : Time
deriving Repr

/-- Body of a generation-create event (lines 754-772; usage details beyond
the child count omitted). -/
structure GenBody where
  id : String
  trace_id : String
  name : String
  model : PyVal
  input : PyVal
  output : PyVal
  start_time : Time
  end_time : Time
  tool_call_count : Nat
deriving Repr

/-- Body of a span-create event (lines 334-353 and 834-850).  `id = none`
models a freshly generated random UUID. -/
structure SpanBody where
  id : Option String
  trace_id : String
  parent_observation_id : String
  name : String
  input : PyVal
  output : PyVal
  start_time : Time
  end_time : Time
  meta : List (String × PyVal)
deriving Repr

/-- One ingestion event. -/
inductive LfEvent where
  | traceCreate (b : TraceBody)
  | generationCreate (b : GenBody)
  | spanCreate (b : SpanBody)
deriving Repr

/-- `pending_background_tasks[k] = v` (overwrite or append). -/
def pendingInsert (m : List (String × PendingTask)) (k : String) (v : PendingTask) :
    List (String × PendingTask) :=
  if m.any (fun kv => kv.1 = k) then
    m.map (fun kv => if kv.1 = k then (kv.1, v) else kv)
  else m ++ [(k, v)]

/-- `del pending_background_tasks[k]`. -/
def pendingErase (m : List (String × PendingTask)) (k : String) :
    List (String × PendingTask) :=
  m.filter (fun kv => kv.1 ≠ k)

/-- Lookup of a pending background task. -/
def pendingLookup (m : List (String × PendingTask)) (k : String) : Option PendingTask :=
  (m.find? (fun kv => kv.1 = k)).map (fun kv => kv.2)

/-- `create_background_umbrella_span(...)` (lines 293-353): the umbrella
span for a completed background task, with a deterministic record id
derived from the origin tool-use id and the background task id, parented
under the supplied generation, spanning registered start to completion. -/
def create_background_umbrella_span (background_task_id : String)
    (pending_task : PendingTask) (completion_time : Time)
    (trace_id generation_id : String) : LfEvent :=
  let span_id := generate_deterministic_id
    ("umbrella_" ++ pyStr pending_task.bash_tool_use_id ++ "_" ++ background_task_id) ""
  .spanCreate
    { id := some span_id,
      trace_id := trace_id,
      parent_observation_id := generation_id,
      name := "BACKGROUND/" ++ pending_task.activity_kind ++ "/" ++
              pyStr pending_task.tool_name,
      input := .dict [("background_task_id", .str background_task_id)],
      output := .none,
      start_time := pending_task.start_time,
      end_time := completion_time,
      meta := [("activity_kind", .str pending_task.activity_kind),
               ("background_task_id", .str background_task_id),
               ("bash_tool_use_id", pending_task.bash_tool_use_id),
               ("is_background", .bool true)] }

/-- `x or ""` followed by use as a `str.join` item: truthy non-strings raise
`TypeError`. -/
def pyOrEmptyStr (v : PyVal) : Except String String :=
  if pyTruthy v then
    match v with
    | .str s => .ok s
    | _ => .error "TypeError: sequence item is not str"
  else .ok ""

/-- State of the per-tool-call span loop. -/
structure SpanLoopState where
  events : List LfEvent
  pending : List (String × PendingTask)

/-- The tool-output lookup opening `processToolCall` (lines 779-781):
`tool_results.get(tool_use_id)` when the id is truthy (raising on an
unhashable id), `None` otherwise. -/
def outputStep (tool_results : List (PyVal × PyVal)) (tid : PyVal) :
    Except String PyVal :=
  if pyTruthy tid then
    if pyHashable tid then pure (dictFind tool_results tid)
    else throw "TypeError: unhashable type"
  else pure PyVal.none

/-- The background-start detection of `processToolCall` (lines 793-817):
on a `Bash` call with truthy output carrying the marker, extend the span
metadata and register the pending background task. -/
def bgStep (tname tinput tid : PyVal) (tkind generation_id : String)
    (start_time : Time) (out : PyVal) (meta0 : List (String × PyVal))
    (pend : List (String × PendingTask)) :
    Except String (List (String × PyVal) × List (String × PendingTask)) :=
  if isStrV tname "Bash" && pyTruthy out then do
    match ← extract_background_task_id out with
    | some b => do
        let command ←
          if pyTruthy tinput then pyGet tinput "command"
          else pure PyVal.none
        let pt : PendingTask :=
          ⟨tid, generation_id, tkind, tname, start_time, command⟩
        pure (meta0 ++ [("is_background_start", PyVal.bool true),
                        ("background_task_id", PyVal.str b)],
              pendingInsert pend b pt)
    | Option.none => pure (meta0, pend)
  else pure (meta0, pend)

/-- The background-completion handling of `processToolCall` (lines
819-830): on a blocking `TaskOutput` of a pending id, emit the umbrella
span, extend the metadata and drop the pending entry. -/
def finStep (trace_id : String) (end_time : Time) (task_id is_blocking : PyVal)
    (evs : List LfEvent) (meta : List (String × PyVal))
    (pend : List (String × PendingTask)) :
    Except String
      (List LfEvent × List (String × PyVal) × List (String × PendingTask)) :=
  if pyTruthy task_id && pyTruthy is_blocking then
    match task_id with
    | .list _ => throw "TypeError: unhashable type"
    | .dict _ => throw "TypeError: unhashable type"
    | .str tid =>
        match pendingLookup pend tid with
        | some pt =>
            let wall := end_time - pt.start_time
            let umb := create_background_umbrella_span tid pt end_time
                         trace_id pt.generation_id
            pure (evs ++ [umb],
                  meta ++ [("is_background_completion", PyVal.bool true),
                           ("background_task_id", PyVal.str tid),
                           ("background_wall_time_seconds", PyVal.num wall)],
                  pendingErase pend tid)
        | Option.none => pure (evs, meta, pend)
    | _ => pure (evs, meta, pend)
  else pure (evs, meta, pend)

/-- The span-record id of `processToolCall` (lines 833-841): deterministic
from a truthy (string) `tool_use_id`, a fresh random UUID (modelled
`none`) otherwise. -/
def spanIdStep (tid : PyVal) : Except String (Option String) :=
  if pyTruthy tid then
    match tid with
    | .str sid => pure (some (generate_deterministic_id sid ""))
    | _ => throw "AttributeError"
  else pure (Option.none : Option String)

/-- Process one tool call of a turn (lines 777-850): build the child span,
detect background starts in the tool output, and on a blocking `TaskOutput`
of a pending id emit the umbrella span and drop the pending entry. -/
def processToolCall (trace_id : String) (tool_results : List (PyVal × PyVal))
    (generation_id : String) (start_time end_time : Time)
    (s : SpanLoopState) (tc : ToolCall) : Except String SpanLoopState := do
  let tool_output ← outputStep tool_results tc.tool_use_id
  let meta0 := [("activity_kind", PyVal.str tc.activity_kind),
                ("tool_use_id", tc.tool_use_id)]
  let bg ← bgStep tc.tool_name tc.tool_input tc.tool_use_id tc.activity_kind
    generation_id start_time tool_output meta0 s.pending
  let (task_id, is_blocking) ← extract_task_output_info tc.tool_name tc.tool_input
  let fin ← finStep trace_id end_time task_id is_blocking s.events bg.1 bg.2
  let span_id ← spanIdStep tc.tool_use_id
  let spanEv := LfEvent.spanCreate
    { id := span_id,
      trace_id := trace_id,
      parent_observation_id := generation_id,
      name := tc.activity_kind ++ "/" ++ pyStr tc.tool_name,
      input := tc.tool_input,
      output := tool_output,
      start_time := start_time,
      end_time := end_time,
      meta := fin.2.1 }
  .ok ⟨fin.1 ++ [spanEv], fin.2.2⟩

/-- State of the per-turn loop. -/
structure TurnLoopState where
  events : List LfEvent
  prev_end_time : Option Time
  pending : List (String × PendingTask)

/-- Process one turn (lines 717-853): resolve start/end times, emit the
generation event with its deterministic id, then the tool-call spans. -/
def processTurn (trace_id : String) (tool_results : List (PyVal × PyVal))
    (first_timestamp : Time) (i : Nat) (st : TurnLoopState) (turn : Turn) :
    Except String TurnLoopState := do
  let user_timestamp ← parse_iso_timestamp turn.user_timestamp
  let assistant_timestamp ← parse_iso_timestamp turn.timestamp
  let start_time := user_timestamp.getD (st.prev_end_time.getD first_timestamp)
  let end_time := assistant_timestamp.getD start_time
  let p1 ← pyOrEmptyStr turn.user_timestamp
  let p2 ← pyOrEmptyStr turn.timestamp
  let p3 ← pyOrEmptyStr turn.user_message
  let generation_id := generate_deterministic_id (p1 ++ "|" ++ p2 ++ "|" ++ p3) ""
  let genEv := LfEvent.generationCreate
    { id := generation_id,
      trace_id := trace_id,
      name := "llm-response-" ++ toString i,
      model := turn.model,
      input := turn.user_message,
      output := turn.text_content,
      start_time := start_time,
      end_time := end_time,
      tool_call_count := turn.tool_calls.length }
  let sst ← turn.tool_calls.foldlM
    (processToolCall trace_id tool_results generation_id start_time end_time)
    ⟨[], st.pending⟩
  .ok ⟨st.events ++ genEv :: sst.events, some end_time, sst.pending⟩

/-- The per-turn loop with its running index. -/
def turnsLoop (trace_id : String) (tool_results : List (PyVal × PyVal))
    (first_timestamp : Time) : Nat → TurnLoopState → List Turn →
    Except String TurnLoopState
  | _, st, [] => .ok st
  | i, st, t :: rest => do
      let st' ← processTurn trace_id tool_results first_timestamp i st t
      turnsLoop trace_id tool_results first_timestamp (i + 1) st' rest

/-- Accumulator of the preliminary scan over turns (lines 601-628). -/
structure ScanAcc where
  first_timestamp : Option Time
  last_timestamp : Option Time
  first_user_message : Option PyVal
  last_assistant_text : Option PyVal

/-- One step of the preliminary scan: the first parsable **user** timestamp,
the last parsable assistant timestamp, the first truthy user message and
the last truthy assistant text. -/
def scanTurn (acc : ScanAcc) (turn : Turn) : Except String ScanAcc := do
  let user_ts ← parse_iso_timestamp turn.user_timestamp
  let assistant_ts ← parse_iso_timestamp turn.timestamp
  let acc1 :=
    if user_ts.isSome && acc.first_timestamp.isNone then
      { acc with first_timestamp := user_ts } else acc
  let acc2 :=
    if assistant_ts.isSome then { acc1 with last_timestamp := assistant_ts }
    else acc1
  let acc3 :=
    if pyTruthy turn.user_message && acc2.first_user_message.isNone then
      { acc2 with first_user_message := some turn.user_message } else acc2
  let acc4 :=
    if pyTruthy turn.text_content then
      { acc3 with last_assistant_text := some turn.text_content } else acc3
  .ok acc4

/-- The pure event-construction core of `send_to_langfuse(session_id,
parsed, vk_context)` (lines 596-857): the ordered event batch and the
final pending-background-task table.  `now` stands for
`datetime.now(timezone.utc)` (line 624), the wall-clock fallback. -/
def send_to_langfuse_events (session_id : String) (parsed : ParseResult)
    (now : Time) : Except String (List LfEvent × List (String × PendingTask)) := do
  let acc ← parsed.turns.foldlM scanTurn
    ⟨Option.none, Option.none, Option.none, Option.none⟩
  let first_timestamp := acc.first_timestamp.getD now
  let trace_id := session_id
  let traceEv := LfEvent.traceCreate
    { id := trace_id,
      input := acc.first_user_message.getD .none,
      output := acc.last_assistant_text.getD .none,
      timestamp := first_timestamp }
  let st ← turnsLoop trace_id parsed.tool_results first_timestamp 0
    ⟨[traceEv], Option.none, []⟩ parsed.turns
  .ok (st.events, st.pending)

/-! ## Helper lemmas -/

/-- The shell-command classifier only produces the five kinds of its
branches. -/
lemma bashClassify_mem (c : String) : bashClassify c ∈ activityKinds := by
  unfold bashClassify
  repeat' split
  all_goals simp [activityKinds]

/-- Whatever `classify_activity` returns is one of the ten initialised
kinds. -/
lemma classify_activity_mem {n : String} {i : PyVal} {k : String}
    (h : classify_activity n i = .ok k) : k ∈ activityKinds := by
  unfold classify_activity at h
  repeat' split at h
  all_goals try (injection h with h; subst h)
  all_goals first
    | exact bashClassify_mem _
    | decide
    | exact absurd h (by simp)

/-- Same, for the parser-side wrapper. -/
lemma classifyVal_mem {n i : PyVal} {k : String}
    (h : classifyVal n i = .ok k) : k ∈ activityKinds := by
  unfold classifyVal at h
  split at h
  · exact classify_activity_mem h
  · exact absurd h (by simp)
  · exact absurd h (by simp)
  · injection h with h; subst h; simp [activityKinds]

/-! ## Claim C2 -/

/-- The command string the `Bash` branch would hand to `re.search`, when
that branch cannot raise: after `tool_input or \x7b\x7d` the input is a
dictionary whose `command` value (default `""`) is a string. -/
def bashCommand? (tool_input : PyVal) : Option String :=
  match (if pyTruthy tool_input then tool_input else PyVal.dict []) with
  | .dict kvs =>
      match (dictLookup kvs "command").getD (.str "") with
      | .str c => some c
      | _ => Option.none
  | _ => Option.none

/-- A tool input on which the `Bash` branch cannot raise. -/
def bashCommandSafe (tool_input : PyVal) : Bool :=
  (bashCommand? tool_input).isSome

/-- On safe inputs the `Bash` branch returns the shell classification of
the command string. -/
lemma classify_bash_eq {i : PyVal} {cmd : String} (h : bashCommand? i = some cmd) :
    classify_activity "Bash" i = .ok (bashClassify cmd) := by
  unfold bashCommand? at h
  unfold classify_activity
  rw [if_neg (by decide), if_neg (by decide), if_neg (by decide),
      if_neg (by decide), if_neg (by decide), if_pos rfl]
  split at h
  next kvs hkvs =>
    split at h
    next c hc =>
      injection h with h
      subst h
      rw [hkvs]
      simp only [pyGetD, hc]
    next => exact absurd h (by simp)
  next => exact absurd h (by simp)

/-- The union of the five fixed tool-name sets of `classify_activity`. -/
def knownToolNames : List String :=
  ["Edit", "Write", "NotebookEdit", "TodoWrite", "EnterPlanMode",
   "ExitPlanMode", "AskUserQuestion", "WebSearch", "WebFetch", "Read",
   "Glob", "Grep", "LSP", "LS", "Task", "ListMcpResourcesTool",
   "ReadMcpResourceTool"]

/-- C2, counterexample: `classify_activity` does **not** return a kind for
every tool-input mapping — with tool `Bash` and a mapping whose `command`
value is the number 1, `re.search` is handed a non-string and the call
raises `TypeError` instead of returning a kind. -/
theorem c2_counterexample :
    classify_activity "Bash" (.dict [("command", .num 1)]) =
      .error "TypeError: expected string or bytes-like object" := by
  rfl

/-- C2 (amended): for every tool name and every tool-input value that is
`None` or a mapping whose `command` entry (relevant only when the tool is
`Bash`) is absent or a string, `classify_activity` returns exactly one kind
from the closed ten-kind enumeration and never raises; unknown tool names
resolve to `OTHER`, and a `Bash` command matched by none of the four
pattern groups resolves to `OTHER`.  (Purity is definitional: the
embedding is a function of its two arguments only.) -/
theorem c2_classify_total_closed (n : String) (i : PyVal)
    (h : n ≠ "Bash" ∨ bashCommandSafe i = true) :
    (∃ k, classify_activity n i = .ok k ∧ k ∈ activityKinds) ∧
    (n ∉ knownToolNames → n ≠ "Bash" → classify_activity n i = .ok "OTHER") ∧
    (∀ c : String, matchesAny git_patterns c = false →
      matchesAny test_patterns c = false →
      matchesAny build_patterns c = false →
      matchesAny setup_patterns c = false → bashClassify c = "OTHER") := by
  refine ⟨?_, ?_, ?_⟩
  · by_cases hb : n = "Bash"
    · subst hb
      rcases h with h | h
      · exact absurd rfl h
      · unfold bashCommandSafe at h
        rcases ho : bashCommand? i with _ | cmd
        · rw [ho] at h; exact absurd h (by simp)
        · exact ⟨bashClassify cmd, classify_bash_eq ho, bashClassify_mem cmd⟩
    · unfold classify_activity
      by_cases h1 : n ∈ ["Edit", "Write", "NotebookEdit"]
      · exact ⟨"CODE", by rw [if_pos h1], by decide⟩
      · by_cases h2 : n ∈ ["TodoWrite", "EnterPlanMode", "ExitPlanMode"]
        · exact ⟨"PLAN", by rw [if_neg h1, if_pos h2], by decide⟩
        · by_cases h3 : n ∈ ["AskUserQuestion"]
          · exact ⟨"COMMUNICATE", by rw [if_neg h1, if_neg h2, if_pos h3],
              by decide⟩
          · by_cases h4 : n ∈ ["WebSearch", "WebFetch"]
            · exact ⟨"RESEARCH", by rw [if_neg h1, if_neg h2, if_neg h3,
                if_pos h4], by decide⟩
            · by_cases h5 : n ∈ ["Read", "Glob", "Grep", "LSP", "LS", "Task",
                                 "ListMcpResourcesTool", "ReadMcpResourceTool"]
              · exact ⟨"EXPLORE", by rw [if_neg h1, if_neg h2, if_neg h3,
                  if_neg h4, if_pos h5], by decide⟩
              · exact ⟨"OTHER", by rw [if_neg h1, if_neg h2, if_neg h3,
                  if_neg h4, if_neg h5, if_neg hb], by decide⟩
  · intro hn hb
    have m1 : n ∉ (["Edit", "Write", "NotebookEdit"] : List String) := by
      intro hm; apply hn; fin_cases hm <;> decide
    have m2 : n ∉ (["TodoWrite", "EnterPlanMode", "ExitPlanMode"] : List String) := by
      intro hm; apply hn; fin_cases hm <;> decide
    have m3 : n ∉ (["AskUserQuestion"] : List String) := by
      intro hm; apply hn; fin_cases hm; decide
    have m4 : n ∉ (["WebSearch", "WebFetch"] : List String) := by
      intro hm; apply hn; fin_cases hm <;> decide
    have m5 : n ∉ (["Read", "Glob", "Grep", "LSP", "LS", "Task",
                    "ListMcpResourcesTool", "ReadMcpResourceTool"] : List String) := by
      intro hm; apply hn; fin_cases hm <;> decide
    unfold classify_activity
    rw [if_neg m1, if_neg m2, if_neg m3, if_neg m4, if_neg m5, if_neg hb]
  · intro c h1 h2 h3 h4
    unfold bashClassify
    rw [h1, h2, h3, h4]
    rfl

/-- C2 witness: the theorem applied at the unknown tool name
`"Frobnicate"` with input `None`. -/
theorem c2_witness :
    (∃ k, classify_activity "Frobnicate" .none = .ok k ∧ k ∈ activityKinds) ∧
    classify_activity "Frobnicate" .none = .ok "OTHER" := by
  have h := c2_classify_total_closed "Frobnicate" .none (Or.inl (by decide))
  exact ⟨h.1, h.2.1 (by decide) (by decide)⟩

/-! ## Claim C3 -/

/-- C3: the shell-command pattern groups are consulted in the order GIT,
TEST, BUILD, SETUP with the first matching group deciding the kind; in
particular `pnpm test` classifies as TEST (not BUILD or SETUP) and
`npm install` classifies as SETUP. -/
theorem c3_bash_group_order :
    (∀ c : String,
      (matchesAny git_patterns c = true → bashClassify c = "GIT") ∧
      (matchesAny git_patterns c = false → matchesAny test_patterns c = true →
        bashClassify c = "TEST") ∧
      (matchesAny git_patterns c = false → matchesAny test_patterns c = false →
        matchesAny build_patterns c = true → bashClassify c = "BUILD") ∧
      (matchesAny git_patterns c = false → matchesAny test_patterns c = false →
        matchesAny build_patterns c = false → matchesAny setup_patterns c = true →
        bashClassify c = "SETUP")) ∧
    classify_activity "Bash" (.dict [("command", .str "pnpm test")]) = .ok "TEST" ∧
    classify_activity "Bash" (.dict [("command", .str "npm install")]) = .ok "SETUP" := by
  refine ⟨fun c => ⟨?_, ?_, ?_, ?_⟩, ?_, ?_⟩
  · intro h; simp [bashClassify, h]
  · intro h1 h2; simp [bashClassify, h1, h2]
  · intro h1 h2 h3; simp [bashClassify, h1, h2, h3]
  · intro h1 h2 h3 h4; simp [bashClassify, h1, h2, h3, h4]
  · rfl
  · rfl

/-- C3 witness: the TEST implication applied at the concrete command
`pnpm test`, whose group matches are computed by `decide`. -/
theorem c3_witness : bashClassify "pnpm test" = "TEST" :=
  (c3_bash_group_order.1 "pnpm test").2.1 (by decide) (by decide)

/-! ## Claims C9 and C10 -/

/-- Every hex digit produced by `hexDigit` is one of the sixteen hex
characters. -/
lemma hexDigit_mem (n : Nat) : hexDigit n ∈ hexChars := by
  unfold hexDigit List.getD
  rcases hg : hexChars.get? n with _ | c
  · decide
  · simp only [Option.getD_some]
    exact List.get?_mem hg

/-- Every character of a word's hex rendering is a hex character. -/
lemma wordHex_mem {w : Nat} {c : Char} (h : c ∈ wordHex w) : c ∈ hexChars := by
  unfold wordHex at h
  simp only [List.mem_cons, List.not_mem_nil, or_false] at h
  rcases h with h | h | h | h | h | h | h | h <;> (subst h; exact hexDigit_mem _)

/-- The hex digest of any message has 64 characters, all hexadecimal. -/
lemma sha256Hex_length (msg : List Nat) :
    (sha256Hex msg).length = 64 ∧ ∀ c ∈ sha256Hex msg, c ∈ hexChars := by
  unfold sha256Hex
  constructor
  · simp [wordHex]
  · intro c hc
    simp only [List.mem_append] at hc
    rcases hc with ((((((h | h) | h) | h) | h) | h) | h) | h <;> exact wordHex_mem h

/-- C9: `generate_deterministic_id` is a pure function of the seed alone —
it is definitionally the first 32 hexadecimal characters of the SHA-256
digest of the UTF-8 encoded seed, a fixed-length 32-character hex string,
derived from no random value (the embedding takes no other inputs). -/
theorem c9_deterministic_id (seed pfx : String) :
    generate_deterministic_id seed pfx =
      String.mk ((sha256Hex (utf8Encode seed)).take 32) ∧
    (generate_deterministic_id seed pfx).length = 32 ∧
    ∀ c ∈ (generate_deterministic_id seed pfx).data, c ∈ hexChars := by
  refine ⟨rfl, ?_, ?_⟩
  · show (String.mk ((sha256Hex (utf8Encode seed)).take 32)).length = 32
    have hl := (sha256Hex_length (utf8Encode seed)).1
    simp [String.length, hl]
  · intro c hc
    have hm : c ∈ (sha256Hex (utf8Encode seed)).take 32 := hc
    exact (sha256Hex_length (utf8Encode seed)).2 c (List.take_subset _ _ hm)

/-- C10: the `prefix` parameter of `generate_deterministic_id` has no
influence whatsoever on the returned identifier — any two prefixes give
equal ids for every seed. -/
theorem c10_prefix_ignored (seed p1 p2 : String) :
    generate_deterministic_id seed p1 = generate_deterministic_id seed p2 := rfl

/-! ## Claim C7 -/

/-- C7: inserting one malformed (non-JSON-decodable) line anywhere in a log
leaves the parse result — in particular its turns — unchanged: malformed
lines are skipped and never fatal. -/
theorem c7_malformed_line_transparent (pre post : List Line) :
    parseLines (pre ++ Line.malformed :: post) = parseLines (pre ++ post) ∧
    (parseLines (pre ++ Line.malformed :: post)).map ParseResult.turns =
      (parseLines (pre ++ post)).map ParseResult.turns := by
  have key : (pre ++ Line.malformed :: post).foldlM processLine initState =
      (pre ++ post).foldlM processLine initState := by
    rw [List.foldlM_append, List.foldlM_append]
    apply bind_congr
    intro st
    show (Line.malformed :: post).foldlM processLine st =
      post.foldlM processLine st
    rw [List.foldlM_cons]
    show processLine st Line.malformed >>= post.foldlM processLine = _
    rw [show processLine st Line.malformed = pure st from rfl, pure_bind]
  have heq : parseLines (pre ++ Line.malformed :: post) =
      parseLines (pre ++ post) := by
    unfold parseLines
    rw [key]
  exact ⟨heq, by rw [heq]⟩

/-! ## Claim C8 -/

/-- C8: for every path that does not name an existing file,
`parse_transcript` returns (without raising) the empty result: no turns, an
empty tool-results table, null session metadata, zeroed token totals and
all ten activity counters present at 0. -/
theorem c8_missing_file (fs : String → Option (List Line)) (path : String)
    (h : fs path = Option.none) :
    parse_transcript fs path = .ok initResult ∧
    initResult.turns = [] ∧
    initResult.tool_results = [] ∧
    isNoneV initResult.cwd = true ∧
    isNoneV initResult.git_branch = true ∧
    isNoneV initResult.model = true ∧
    initResult.input_tokens = 0 ∧
    initResult.output_tokens = 0 ∧
    initResult.cache_read_input_tokens = 0 ∧
    initResult.cache_creation_input_tokens = 0 ∧
    initResult.activity_counts = activityKinds.map (fun k => (k, 0)) ∧
    initResult.activity_counts.length = 10 ∧
    sumCounts initResult.activity_counts = 0 := by
  unfold parse_transcript
  rw [h]
  exact ⟨rfl, rfl, rfl, rfl, rfl, rfl, rfl, rfl, rfl, rfl, rfl, by decide,
    by decide⟩

/-- C8 witness: the theorem applied to a file system with no files at the
path `"/tmp/missing.jsonl"`. -/
theorem c8_witness :
    parse_transcript (fun _ => Option.none) "/tmp/missing.jsonl" =
      .ok initResult ∧ initResult.turns = [] :=
  have h := c8_missing_file (fun _ => Option.none) "/tmp/missing.jsonl" rfl
  ⟨h.1, h.2.1⟩

/-! ## Inversion helpers for the `Except` monad -/

lemma bind_ok_inv {α β : Type} {m : Except String α} {g : α → Except String β}
    {r : β} (hm : (m >>= g) = .ok r) : ∃ v, m = .ok v ∧ g v = .ok r := by
  rcases m with e | v
  · exact absurd hm (by simp [Bind.bind, Except.bind])
  · exact ⟨v, rfl, hm⟩

lemma pyGet_ok_inv {e : PyVal} {k : String} {a : PyVal}
    (h : pyGet e k = .ok a) :
    ∃ kvs, e = .dict kvs ∧ a = (dictLookup kvs k).getD .none := by
  cases e with
  | dict kvs =>
      refine ⟨kvs, rfl, ?_⟩
      injection h with h
      exact h.symm
  | _ => exact absurd h (by simp [pyGet, pyGetD])

lemma pyGetD_ok_inv {e : PyVal} {k : String} {d a : PyVal}
    (h : pyGetD e k d = .ok a) :
    ∃ kvs, e = .dict kvs ∧ a = (dictLookup kvs k).getD d := by
  cases e with
  | dict kvs =>
      refine ⟨kvs, rfl, ?_⟩
      injection h with h
      exact h.symm
  | _ => exact absurd h (by simp [pyGetD])

/-! ## Shape lemmas for the parser branches -/

/-- The `user` branch touches only the tool-results table and the pending
message/timestamp. -/
lemma processUser_shape {st : PState} {e : PyVal} {st' : PState}
    (h : processUser st e = .ok st') :
    st'.res = { st.res with tool_results := st'.res.tool_results } := by
  unfold processUser at h
  obtain ⟨message, hm, h⟩ := bind_ok_inv h
  obtain ⟨content, hc, h⟩ := bind_ok_inv h
  obtain ⟨ts, hts, h⟩ := bind_ok_inv h
  split at h
  · injection h with h
    subst h
    rfl
  · obtain ⟨blocks, hb, h⟩ := bind_ok_inv h
    obtain ⟨acc, ha, h⟩ := bind_ok_inv h
    obtain ⟨pum, hp, h⟩ := bind_ok_inv h
    injection h with h
    subst h
    rfl

/-- The `summary` branch touches only `cwd` and `git_branch`, assigning
both from the entry's fields. -/
lemma processSummary_shape {st : PState} {e : PyVal} {st' : PState}
    (h : processSummary st e = .ok st') :
    st'.res = { st.res with cwd := st'.res.cwd,
                            git_branch := st'.res.git_branch } ∧
    st'.pending_user_message = st.pending_user_message ∧
    st'.pending_user_timestamp = st.pending_user_timestamp ∧
    ∀ kvs, e = .dict kvs →
      st'.res.cwd = (dictLookup kvs "cwd").getD .none ∧
      st'.res.git_branch = (dictLookup kvs "git_branch").getD .none := by
  unfold processSummary at h
  obtain ⟨cwd, hcwd, h⟩ := bind_ok_inv h
  obtain ⟨gb, hgb, h⟩ := bind_ok_inv h
  injection h with h
  subst h
  obtain ⟨kvs, hkvs, hval⟩ := pyGet_ok_inv hcwd
  subst hkvs
  obtain ⟨kvs', hkvs', hval'⟩ := pyGet_ok_inv hgb
  injection hkvs' with hk
  subst hk
  refine ⟨rfl, rfl, rfl, ?_⟩
  intro kvs2 hkvs2
  injection hkvs2 with hk2
  subst hk2
  exact ⟨hval, hval'⟩

/-- The model value an assistant entry would record: the `model` field of
its `message` dictionary. -/
def assistantModel : PyVal → PyVal
  | .dict kvs =>
      match (dictLookup kvs "message").getD (.dict []) with
      | .dict mkvs => (dictLookup mkvs "model").getD .none
      | _ => .none
  | _ => .none

/-- The `assistant` branch never touches `cwd`/`git_branch`, and sets
`model` only when it is still `None` and the entry's model is truthy. -/
lemma processAssistant_meta {st : PState} {e : PyVal} {st' : PState}
    (h : processAssistant st e = .ok st') :
    st'.res.cwd = st.res.cwd ∧ st'.res.git_branch = st.res.git_branch ∧
    st'.res.model =
      (if pyTruthy (assistantModel e) && isNoneV st.res.model
       then assistantModel e else st.res.model) := by
  unfold processAssistant at h
  obtain ⟨message, hm, h⟩ := bind_ok_inv h
  obtain ⟨content, hc, h⟩ := bind_ok_inv h
  obtain ⟨usage, hu, h⟩ := bind_ok_inv h
  obtain ⟨model, hmo, h⟩ := bind_ok_inv h
  obtain ⟨blocks, hb, h⟩ := bind_ok_inv h
  obtain ⟨acc, ha, h⟩ := bind_ok_inv h
  obtain ⟨it, hit, h⟩ := bind_ok_inv h
  obtain ⟨ot, hot, h⟩ := bind_ok_inv h
  obtain ⟨cr, hcr, h⟩ := bind_ok_inv h
  obtain ⟨cc, hcc, h⟩ := bind_ok_inv h
  obtain ⟨txt, htxt, h⟩ := bind_ok_inv h
  obtain ⟨ts, hts, h⟩ := bind_ok_inv h
  injection h with h
  subst h
  obtain ⟨kvs, hkvs, hmsg⟩ := pyGetD_ok_inv hm
  obtain ⟨mkvs, hmkvs, hmodel⟩ := pyGet_ok_inv hmo
  have hma : assistantModel e = model := by
    subst hkvs
    show (match (dictLookup kvs "message").getD (.dict []) with
          | PyVal.dict mkvs => (dictLookup mkvs "model").getD .none
          | _ => PyVal.none) = model
    rw [← hmsg, hmkvs]
    exact hmodel.symm
  rw [hma]
  by_cases hifc : (pyTruthy model && isNoneV st.res.model) = true
  · simp only [hifc]
    refine ⟨?_, ?_, ?_⟩ <;> rfl
  · rw [Bool.not_eq_true] at hifc
    simp only [hifc]
    refine ⟨?_, ?_, ?_⟩ <;> rfl

/-! ## Claim C6 -/

/-- Does the entry look like a `summary` entry (a dictionary whose `type`
field is the string `"summary"`)? -/
def isSummaryEntry : PyVal → Bool
  | .dict kvs => isStrV ((dictLookup kvs "type").getD .none) "summary"
  | _ => false

/-- Does the entry look like an `assistant` entry? -/
def isAssistantEntry : PyVal → Bool
  | .dict kvs => isStrV ((dictLookup kvs "type").getD .none) "assistant"
  | _ => false

/-- A field of a dictionary entry (`None` when absent or not a
dictionary). -/
def entryField (v : PyVal) (k : String) : PyVal :=
  match v with
  | .dict kvs => (dictLookup kvs k).getD .none
  | _ => .none

/-- First summary entry of the C6 counterexample log: `git_branch = "a"`,
no `cwd`. -/
def c6entry1 : PyVal := .dict [("type", .str "summary"), ("git_branch", .str "a")]

/-- Second summary entry of the C6 counterexample log: `git_branch = "b"`,
no `cwd`. -/
def c6entry2 : PyVal := .dict [("type", .str "summary"), ("git_branch", .str "b")]

/-- C6, counterexample: `git_branch` is **not** "set at most once, first
non-null value wins, never overwritten".  Parsing the one-entry log whose
summary carries `git_branch = "a"` records `"a"`; appending a second
summary with `git_branch = "b"` ends with `"b"` — the first non-null value
`"a"` was overwritten, because the summary branch is guarded only by `cwd
is None` and reassigns `git_branch` every time it runs. -/
theorem c6_counterexample :
    (parseLines [.entry c6entry1]).map ParseResult.git_branch =
      .ok (.str "a") ∧
    (parseLines [.entry c6entry1, .entry c6entry2]).map ParseResult.git_branch =
      .ok (.str "b") := by
  exact ⟨rfl, rfl⟩

/-- A value cannot be two different strings. -/
lemma isStrV_unique {v : PyVal} {a b : String} (ha : isStrV v a = true)
    (hb : isStrV v b = true) : a = b := by
  cases v
  case str s =>
    simp only [isStrV, decide_eq_true_eq] at ha hb
    rw [← ha, ← hb]
  all_goals exact absurd ha (by simp [isStrV])

/-- `isNoneV v = true` means `v` is `None`. -/
lemma isNoneV_eq {v : PyVal} (h : isNoneV v = true) : v = .none := by
  cases v <;> first | rfl | exact absurd h (by simp [isNoneV])

/-- C6 (amended): once `cwd` is non-null, neither `cwd` nor `git_branch` is
ever changed again, and once `model` is non-null it is never changed again
— so `cwd` is set at most once with the first non-null value winning, and
`model` with the first truthy value winning.  But while `cwd` is still
null, **every** summary entry assigns both `cwd` and `git_branch` from its
own fields, so `git_branch` can be assigned repeatedly and a later summary
overwrites an earlier non-null value.  `model` is changed only by
assistant entries, to a truthy model value, while still null. -/
theorem c6_metadata_policy (st : PState) (v : PyVal) (st' : PState)
    (h : processEntry st v = .ok st') :
    (isNoneV st.res.cwd = false →
       st'.res.cwd = st.res.cwd ∧ st'.res.git_branch = st.res.git_branch) ∧
    (isNoneV st.res.model = false → st'.res.model = st.res.model) ∧
    (isNoneV st.res.cwd = true → isSummaryEntry v = true →
       ∀ kvs, v = .dict kvs →
         st'.res.cwd = (dictLookup kvs "cwd").getD .none ∧
         st'.res.git_branch = (dictLookup kvs "git_branch").getD .none) ∧
    (isAssistantEntry v = false → st'.res.model = st.res.model) ∧
    (isAssistantEntry v = true → isNoneV st.res.model = true →
       st'.res.model =
         (if pyTruthy (assistantModel v) then assistantModel v else .none)) := by
  unfold processEntry at h
  obtain ⟨entry_type, het, h⟩ := bind_ok_inv h
  obtain ⟨kvs, hkvs, hval⟩ := pyGet_ok_inv het
  subst hkvs
  have hsum : isSummaryEntry (PyVal.dict kvs) =
      isStrV entry_type "summary" := by
    unfold isSummaryEntry
    rw [hval]
  have hasst : isAssistantEntry (PyVal.dict kvs) =
      isStrV entry_type "assistant" := by
    unfold isAssistantEntry
    rw [hval]
  split at h
  next hcond =>
    -- summary branch (only while cwd is None)
    rw [Bool.and_eq_true] at hcond
    obtain ⟨hshape, _, _, hfields⟩ := processSummary_shape h
    refine ⟨?_, ?_, ?_, ?_, ?_⟩
    · intro hc; rw [hcond.2] at hc; exact absurd hc (by simp)
    · intro _; rw [hshape]
    · intro _ _ kvs2 hk2
      injection hk2 with hk2
      subst hk2
      exact hfields kvs rfl
    · intro _; rw [hshape]
    · intro ha _
      rw [hasst] at ha
      exact absurd (isStrV_unique hcond.1 ha) (by decide)
  next hnc =>
    split at h
    next hu =>
      -- user branch
      have hshape := processUser_shape h
      refine ⟨?_, ?_, ?_, ?_, ?_⟩
      · intro _; rw [hshape]; exact ⟨rfl, rfl⟩
      · intro _; rw [hshape]
      · intro _ hs
        rw [hsum] at hs
        exact absurd (isStrV_unique hs hu) (by decide)
      · intro _; rw [hshape]
      · intro ha _
        rw [hasst] at ha
        exact absurd (isStrV_unique hu ha) (by decide)
    next hnu =>
      split at h
      next hass =>
        -- assistant branch
        obtain ⟨hcwd, hgb, hmod⟩ := processAssistant_meta h
        refine ⟨?_, ?_, ?_, ?_, ?_⟩
        · intro _; exact ⟨hcwd, hgb⟩
        · intro hm
          rw [hmod, hm]
          simp
        · intro _ hs
          rw [hsum] at hs
          exact absurd (isStrV_unique hs hass) (by decide)
        · intro ha
          rw [hasst] at ha
          exact absurd hass (by rw [ha]; exact Bool.false_ne_true)
        · intro _ hm
          rw [hmod, hm, Bool.and_true, isNoneV_eq hm]
      next hna =>
        -- other entry types: state unchanged
        injection h with h
        subst h
        refine ⟨fun _ => ⟨rfl, rfl⟩, fun _ => rfl, ?_, fun _ => rfl, ?_⟩
        · intro hc hs
          rw [hsum] at hs
          refine absurd ?_ hnc
          rw [hs, hc]
          rfl
        · intro ha _
          rw [hasst] at ha
          exact absurd ha hna

/-- The state after processing the first C6 summary entry. -/
def c6state1 : PState :=
  { res := { initResult with git_branch := .str "a" },
    pending_user_message := .none,
    pending_user_timestamp := .none }

/-- C6 witness: the amended theorem applied to the initial state and the
first counterexample summary entry — while `cwd` is null, the summary
assigns `git_branch` from the entry's own field. -/
theorem c6_witness :
    c6state1.res.git_branch =
      (dictLookup [("type", PyVal.str "summary"), ("git_branch", PyVal.str "a")]
        "git_branch").getD .none ∧
    c6state1.res.cwd =
      (dictLookup [("type", PyVal.str "summary"), ("git_branch", PyVal.str "a")]
        "cwd").getD .none := by
  have h := c6_metadata_policy initState c6entry1 c6state1 (by rfl)
  have h3 := (h.2.2.1 rfl (by rfl)) _ rfl
  exact ⟨h3.2, h3.1⟩

/-! ## Claim C1: counting machinery -/

/-- Bind of a success, as a rewrite rule. -/
@[simp] lemma ok_bind {α β : Type} (a : α) (f : α → Except String β) :
    (Except.ok a >>= f : Except String β) = f a := rfl

/-- `pyGet` on a dictionary, as a rewrite rule. -/
@[simp] lemma pyGet_dict (kvs : List (String × PyVal)) (k : String) :
    pyGet (.dict kvs) k = .ok ((dictLookup kvs k).getD .none) := rfl

/-- `pyGetD` on a dictionary, as a rewrite rule. -/
@[simp] lemma pyGetD_dict (kvs : List (String × PyVal)) (k : String) (d : PyVal) :
    pyGetD (.dict kvs) k d = .ok ((dictLookup kvs k).getD d) := rfl

/-- Joining a list of strings cannot fail. -/
lemma pyJoin_ok {parts : List PyVal} (h : parts.all isStrPy = true) :
    ∃ s, pyJoin parts = .ok s := by
  induction parts with
  | nil => exact ⟨"", rfl⟩
  | cons p rest ih =>
      rw [List.all_cons, Bool.and_eq_true] at h
      obtain ⟨hp, hrest⟩ := h
      cases p
      case str s =>
        obtain ⟨t, ht⟩ := ih hrest
        cases rest with
        | nil => exact ⟨s, rfl⟩
        | cons q qs =>
            refine ⟨s ++ "\n" ++ t, ?_⟩
            show (pyJoin (q :: qs) >>= fun tail =>
              Except.ok (s ++ "\n" ++ tail)) = _
            rw [ht]
            rfl
      all_goals exact absurd hp (by simp [isStrPy])

/-- `joinParts` succeeds on all-string parts. -/
lemma joinParts_ok {parts : List PyVal} (h : parts.all isStrPy = true) :
    ∃ v, joinParts parts = .ok v := by
  unfold joinParts
  cases hp : parts.isEmpty
  · obtain ⟨s, hs⟩ := pyJoin_ok h
    rw [hs]
    exact ⟨.str s, rfl⟩
  · exact ⟨.none, rfl⟩

/-- Bumping a key preserves the key list. -/
lemma bump_keys (m : List (String × Nat)) (k : String) :
    (m.map (fun kv => if kv.1 = k then (kv.1, kv.2 + 1) else kv)).map Prod.fst
      = m.map Prod.fst := by
  induction m with
  | nil => rfl
  | cons a rest ih =>
      simp only [List.map_cons, ih, List.cons.injEq, and_true]
      split <;> rfl

/-- Bumping a key adds the key's multiplicity to the sum of the values. -/
lemma bump_sum (m : List (String × Nat)) (k : String) :
    sumCounts (m.map (fun kv => if kv.1 = k then (kv.1, kv.2 + 1) else kv))
      = sumCounts m + (m.map Prod.fst).count k := by
  induction m with
  | nil => rfl
  | cons a rest ih =>
      by_cases hak : a.1 = k
      · rw [List.map_cons, if_pos hak]
        simp only [sumCounts, List.map_cons, List.sum_cons] at ih ⊢
        rw [hak, List.count_cons_self]
        omega
      · rw [List.map_cons, if_neg hak]
        simp only [sumCounts, List.map_cons, List.sum_cons] at ih ⊢
        rw [List.count_cons_of_ne (fun h => hak h.symm)]
        omega

/-- The ten activity kinds are distinct. -/
lemma activityKinds_nodup : activityKinds.Nodup := by decide

/-- Incrementing a present counter key succeeds, keeps the key list, and
adds exactly one when the key list is the (duplicate-free) kind list. -/
lemma incrCount_ok {m : List (String × Nat)} {k : String}
    (hkeys : m.map Prod.fst = activityKinds) (hk : k ∈ activityKinds) :
    ∃ m', incrCount m k = .ok m' ∧
      m'.map Prod.fst = activityKinds ∧
      sumCounts m' = sumCounts m + 1 := by
  have hmem : k ∈ m.map Prod.fst := by rw [hkeys]; exact hk
  have hany : m.any (fun kv => kv.1 = k) = true := by
    rw [List.any_eq_true]
    obtain ⟨kv, hkv, he⟩ := List.mem_map.mp hmem
    exact ⟨kv, hkv, by rw [decide_eq_true_eq]; exact he⟩
  refine ⟨_, by unfold incrCount; rw [if_pos hany], ?_, ?_⟩
  · rw [bump_keys, hkeys]
  · rw [bump_sum, hkeys, List.count_eq_one_of_mem activityKinds_nodup hk]

/-- One well-formed assistant content block processes successfully,
preserving the counter keys, the all-string parts invariant, and the
balance `sum counts + #tool calls`. -/
lemma stepA_ok {b : PyVal} {parts : List PyVal} {tc : List ToolCall}
    {counts : List (String × Nat)}
    (hb : wfABlock b = true) (hk : counts.map Prod.fst = activityKinds)
    (hp : parts.all isStrPy = true) :
    ∃ acc1 : AAcc,
      processAssistantBlock ⟨parts, tc, counts⟩ b = .ok acc1 ∧
      acc1.counts.map Prod.fst = activityKinds ∧
      sumCounts acc1.counts + tc.length =
        sumCounts counts + acc1.tool_calls.length ∧
      acc1.parts.all isStrPy = true := by
  cases b
  case dict kvs =>
    simp only [wfABlock] at hb
    unfold processAssistantBlock
    simp only [pyGet_dict, pyGetD_dict, ok_bind]
    by_cases ht : isStrV ((dictLookup kvs "type").getD .none) "text" = true
    · rw [if_pos ht] at hb ⊢
      refine ⟨⟨parts ++ [(dictLookup kvs "text").getD (.str "")], tc, counts⟩,
        rfl, hk, rfl, ?_⟩
      rw [List.all_append]
      simp [hp, hb, List.all_cons]
    · rw [if_neg ht] at hb ⊢
      by_cases hu : isStrV ((dictLookup kvs "type").getD .none) "tool_use" = true
      · rw [if_pos hu] at hb ⊢
        rcases hcv : classifyVal ((dictLookup kvs "name").getD (.str ""))
            ((dictLookup kvs "input").getD (.dict [])) with e | kind
        · rw [hcv] at hb
          exact absurd hb (by simp [Except.isOk, Except.toBool])
        · obtain ⟨m', hm', hkeys', hsum'⟩ :=
            incrCount_ok hk (classifyVal_mem hcv)
          simp only [ok_bind]
          rw [hm']
          simp only [ok_bind]
          refine ⟨⟨parts, tc ++ [⟨(dictLookup kvs "name").getD (.str ""),
            (dictLookup kvs "input").getD (.dict []),
            (dictLookup kvs "id").getD .none, kind⟩], m'⟩, rfl, hkeys', ?_, hp⟩
          simp only [List.length_append, List.length_cons, List.length_nil]
          omega
      · rw [if_neg hu]
        exact ⟨⟨parts, tc, counts⟩, rfl, hk, rfl, hp⟩
  all_goals exact absurd hb (by simp [wfABlock])

/-- The assistant content loop succeeds on well-formed blocks, and the sum
of the counters grows by exactly the number of tool calls recorded. -/
lemma foldA_ok : ∀ (blocks : List PyVal) (parts : List PyVal)
    (tc : List ToolCall) (counts : List (String × Nat)),
    blocks.all wfABlock = true →
    counts.map Prod.fst = activityKinds →
    parts.all isStrPy = true →
    ∃ acc : AAcc,
      blocks.foldlM processAssistantBlock ⟨parts, tc, counts⟩ = .ok acc ∧
      acc.counts.map Prod.fst = activityKinds ∧
      sumCounts acc.counts + tc.length =
        sumCounts counts + acc.tool_calls.length ∧
      acc.parts.all isStrPy = true := by
  intro blocks
  induction blocks with
  | nil =>
      intro parts tc counts _ hk hp
      exact ⟨⟨parts, tc, counts⟩, rfl, hk, rfl, hp⟩
  | cons b bs ih =>
      intro parts tc counts hwf hk hp
      rw [List.all_cons, Bool.and_eq_true] at hwf
      obtain ⟨hb, hbs⟩ := hwf
      obtain ⟨acc1, h1, hk1, hs1, hp1⟩ := @stepA_ok _ _ tc _ hb hk hp
      obtain ⟨p1, t1, c1⟩ := acc1
      rw [List.foldlM_cons, h1, ok_bind]
      obtain ⟨acc, hacc, hk2, hs2, hp2⟩ := ih p1 t1 c1 hbs hk1 hp1
      refine ⟨acc, hacc, hk2, ?_, hp2⟩
      simp only at hs1 hs2
      omega

/-- One well-formed user content block processes successfully, keeping the
parts all strings. -/
lemma stepU_ok {b : PyVal} {parts : List PyVal} {tr : List (PyVal × PyVal)}
    (hb : wfUserBlock b = true) (hp : parts.all isStrPy = true) :
    ∃ acc1 : UAcc, processUserBlock ⟨parts, tr⟩ b = .ok acc1 ∧
      acc1.parts.all isStrPy = true := by
  cases b
  case str s =>
      refine ⟨(⟨parts ++ [PyVal.str s], tr⟩ : UAcc), rfl, ?_⟩
      rw [List.all_append]
      simp [hp, isStrPy]
  case dict kvs =>
      simp only [wfUserBlock] at hb
      unfold processUserBlock
      simp only [pyGet_dict, pyGetD_dict, ok_bind]
      by_cases ht : isStrV ((dictLookup kvs "type").getD .none) "text" = true
      · rw [if_pos ht] at hb ⊢
        refine ⟨⟨parts ++ [(dictLookup kvs "text").getD (.str "")], tr⟩, rfl, ?_⟩
        rw [List.all_append]
        simp [hp, hb]
      · rw [if_neg ht] at hb ⊢
        by_cases hr : isStrV ((dictLookup kvs "type").getD .none) "tool_result" = true
        · rw [if_pos hr] at hb ⊢
          by_cases htr : pyTruthy ((dictLookup kvs "tool_use_id").getD .none) = true
          · have hh : pyHashable ((dictLookup kvs "tool_use_id").getD .none) = true := by
              rw [Bool.or_eq_true, Bool.not_eq_true'] at hb
              rcases hb with hb | hb
              · rw [htr] at hb; exact absurd hb (by simp)
              · exact hb
            rw [if_pos htr, if_pos hh]
            exact ⟨⟨parts, dictSet tr ((dictLookup kvs "tool_use_id").getD .none)
              ((dictLookup kvs "content").getD .none)⟩, rfl, hp⟩
          · rw [if_neg htr]
            exact ⟨⟨parts, tr⟩, rfl, hp⟩
        · rw [if_neg hr]
          exact ⟨⟨parts, tr⟩, rfl, hp⟩
  all_goals exact ⟨⟨parts, tr⟩, rfl, hp⟩

/-- The user content loop succeeds on well-formed blocks. -/
lemma foldU_ok : ∀ (blocks : List PyVal) (parts : List PyVal)
    (tr : List (PyVal × PyVal)),
    blocks.all wfUserBlock = true →
    parts.all isStrPy = true →
    ∃ acc : UAcc, blocks.foldlM processUserBlock ⟨parts, tr⟩ = .ok acc ∧
      acc.parts.all isStrPy = true := by
  intro blocks
  induction blocks with
  | nil => intro parts tr _ hp; exact ⟨⟨parts, tr⟩, rfl, hp⟩
  | cons b bs ih =>
      intro parts tr hwf hp
      rw [List.all_cons, Bool.and_eq_true] at hwf
      obtain ⟨hb, hbs⟩ := hwf
      obtain ⟨acc1, h1, hp1⟩ := @stepU_ok _ _ tr hb hp
      obtain ⟨p1, t1⟩ := acc1
      rw [List.foldlM_cons, h1, ok_bind]
      exact ih p1 t1 hbs hp1

/-- A well-formed usage counter extracts to an integer. -/
lemma usageVal_ok {ukvs : List (String × PyVal)} {key : String}
    (h : numish ((dictLookup ukvs key).getD (.num 0)) = true) :
    ∃ n : Int, usageVal (.dict ukvs) key = .ok n := by
  unfold usageVal
  simp only [pyGetD_dict, ok_bind]
  rcases hv : (dictLookup ukvs key).getD (.num 0) with _ | b | n | s | xs | kvs2 <;>
    rw [hv] at h
  case bool => exact ⟨if b then 1 else 0, rfl⟩
  case num => exact ⟨n, rfl⟩
  all_goals exact absurd h (by simp [numish])

/-- Appending one turn adds its tool calls to the total. -/
lemma totalToolCalls_append (ts : List Turn) (t : Turn) :
    totalToolCalls (ts ++ [t]) = totalToolCalls ts + t.tool_calls.length := by
  simp [totalToolCalls]

/-- A well-formed assistant entry processes successfully, appending exactly
one turn whose tool calls account for the growth of the counter sum. -/
lemma processAssistant_ok {st : PState} {kvs : List (String × PyVal)}
    (hwf : wfEntry (.dict kvs) = true)
    (hass : isStrV ((dictLookup kvs "type").getD .none) "assistant" = true)
    (hk : st.res.activity_counts.map Prod.fst = activityKinds) :
    ∃ st', processAssistant st (.dict kvs) = .ok st' ∧
      st'.res.activity_counts.map Prod.fst = activityKinds ∧
      ∃ t : Turn, st'.res.turns = st.res.turns ++ [t] ∧
        sumCounts st'.res.activity_counts =
          sumCounts st.res.activity_counts + t.tool_calls.length := by
  simp only [wfEntry] at hwf
  have hnu : ¬ isStrV ((dictLookup kvs "type").getD .none) "user" = true :=
    fun hu => absurd (isStrV_unique hu hass) (by decide)
  rw [if_neg hnu, if_pos hass] at hwf
  rcases hmv : (dictLookup kvs "message").getD (.dict []) with _ | _ | _ | _ | _ | mkvs <;>
    rw [hmv] at hwf <;> simp only [wfAssistantMessage, Bool.and_eq_true] at hwf
  case dict =>
    obtain ⟨husage, hcontent⟩ := hwf
    rcases huv : (dictLookup mkvs "usage").getD (.dict []) with _ | _ | _ | _ | _ | ukvs <;>
      rw [huv] at husage <;> simp only [wfUsage] at husage
    case dict =>
      unfold processAssistant
      simp only [pyGetD_dict, pyGet_dict, ok_bind]
      rw [hmv]
      simp only [pyGetD_dict, pyGet_dict, ok_bind]
      rw [huv]
      have hkif : ((if (pyTruthy ((dictLookup mkvs "model").getD .none) &&
          isNoneV st.res.model) = true then
            { st.res with model := (dictLookup mkvs "model").getD .none }
          else st.res) : ParseResult).activity_counts.map Prod.fst =
          activityKinds := by
        split <;> exact hk
      have hcif : ((if (pyTruthy ((dictLookup mkvs "model").getD .none) &&
          isNoneV st.res.model) = true then
            { st.res with model := (dictLookup mkvs "model").getD .none }
          else st.res) : ParseResult).activity_counts =
          st.res.activity_counts := by
        split <;> rfl
      have htif : ((if (pyTruthy ((dictLookup mkvs "model").getD .none) &&
          isNoneV st.res.model) = true then
            { st.res with model := (dictLookup mkvs "model").getD .none }
          else st.res) : ParseResult).turns = st.res.turns := by
        split <;> rfl
      have main : ∀ blocks : List PyVal, blocks.all wfABlock = true →
          ∃ acc : AAcc,
            blocks.foldlM processAssistantBlock
              ⟨[], [], ((if (pyTruthy ((dictLookup mkvs "model").getD .none) &&
                isNoneV st.res.model) = true then
                  { st.res with model := (dictLookup mkvs "model").getD .none }
                else st.res) : ParseResult).activity_counts⟩ = .ok acc ∧
            acc.counts.map Prod.fst = activityKinds ∧
            sumCounts acc.counts =
              sumCounts st.res.activity_counts + acc.tool_calls.length ∧
            acc.parts.all isStrPy = true := by
        intro blocks hwb
        obtain ⟨acc, hacc, hk1, hs1, hp1⟩ :=
          foldA_ok blocks [] [] _ hwb hkif rfl
        refine ⟨acc, hacc, hk1, ?_, hp1⟩
        rw [hcif] at hs1
        simp only [List.length_nil] at hs1
        omega
      simp only [Bool.and_eq_true, List.all_cons, List.all_nil, and_true]
        at husage
      obtain ⟨hn1, hn2, hn3, hn4⟩ := husage
      revert hcontent
      generalize (dictLookup mkvs "content").getD (PyVal.list []) = content
      intro hcontent
      cases content <;> simp only [wfAssistantContent] at hcontent
      case list xs =>
        simp only [pyIterate, ok_bind]
        obtain ⟨acc, hacc, hk1, hs1, hp1⟩ := main xs hcontent
        rw [hacc]
        simp only [ok_bind]
        obtain ⟨n1, hv1⟩ := usageVal_ok hn1
        obtain ⟨n2, hv2⟩ := usageVal_ok hn2
        obtain ⟨n3, hv3⟩ := usageVal_ok hn3
        obtain ⟨n4, hv4⟩ := usageVal_ok hn4
        rw [hv1]; simp only [ok_bind]
        rw [hv2]; simp only [ok_bind]
        rw [hv3]; simp only [ok_bind]
        rw [hv4]; simp only [ok_bind]
        obtain ⟨txt, htxt⟩ := joinParts_ok hp1
        rw [htxt]
        simp only [ok_bind]
        refine ⟨_, rfl, hk1,
          ⟨⟨st.pending_user_message, st.pending_user_timestamp,
            (dictLookup mkvs "model").getD .none, txt, ⟨n1, n2, n3, n4⟩,
            acc.tool_calls, (dictLookup kvs "timestamp").getD .none⟩, ?_, ?_⟩⟩
        · show _ ++ _ = st.res.turns ++ _
          rw [htif]
        · show sumCounts acc.counts = _
          exact hs1
      case dict ckvs =>
        simp only [pyIterate, ok_bind]
        obtain ⟨acc, hacc, hk1, hs1, hp1⟩ := main _ hcontent
        rw [hacc]
        simp only [ok_bind]
        obtain ⟨n1, hv1⟩ := usageVal_ok hn1
        obtain ⟨n2, hv2⟩ := usageVal_ok hn2
        obtain ⟨n3, hv3⟩ := usageVal_ok hn3
        obtain ⟨n4, hv4⟩ := usageVal_ok hn4
        rw [hv1]; simp only [ok_bind]
        rw [hv2]; simp only [ok_bind]
        rw [hv3]; simp only [ok_bind]
        rw [hv4]; simp only [ok_bind]
        obtain ⟨txt, htxt⟩ := joinParts_ok hp1
        rw [htxt]
        simp only [ok_bind]
        refine ⟨_, rfl, hk1,
          ⟨⟨st.pending_user_message, st.pending_user_timestamp,
            (dictLookup mkvs "model").getD .none, txt, ⟨n1, n2, n3, n4⟩,
            acc.tool_calls, (dictLookup kvs "timestamp").getD .none⟩, ?_, ?_⟩⟩
        · show _ ++ _ = st.res.turns ++ _
          rw [htif]
        · show sumCounts acc.counts = _
          exact hs1
      case str s =>
        simp only [pyIterate, ok_bind]
        obtain ⟨acc, hacc, hk1, hs1, hp1⟩ := main _ hcontent
        rw [hacc]
        simp only [ok_bind]
        obtain ⟨n1, hv1⟩ := usageVal_ok hn1
        obtain ⟨n2, hv2⟩ := usageVal_ok hn2
        obtain ⟨n3, hv3⟩ := usageVal_ok hn3
        obtain ⟨n4, hv4⟩ := usageVal_ok hn4
        rw [hv1]; simp only [ok_bind]
        rw [hv2]; simp only [ok_bind]
        rw [hv3]; simp only [ok_bind]
        rw [hv4]; simp only [ok_bind]
        obtain ⟨txt, htxt⟩ := joinParts_ok hp1
        rw [htxt]
        simp only [ok_bind]
        refine ⟨_, rfl, hk1,
          ⟨⟨st.pending_user_message, st.pending_user_timestamp,
            (dictLookup mkvs "model").getD .none, txt, ⟨n1, n2, n3, n4⟩,
            acc.tool_calls, (dictLookup kvs "timestamp").getD .none⟩, ?_, ?_⟩⟩
        · show _ ++ _ = st.res.turns ++ _
          rw [htif]
        · show sumCounts acc.counts = _
          exact hs1
      all_goals exact absurd hcontent (by simp)
    all_goals exact absurd husage (by simp)
  all_goals exact absurd hwf (by simp)

/-- A well-formed user entry processes successfully. -/
lemma processUser_ok {st : PState} {kvs : List (String × PyVal)}
    (hwf : wfEntry (.dict kvs) = true)
    (huser : isStrV ((dictLookup kvs "type").getD .none) "user" = true) :
    ∃ st', processUser st (.dict kvs) = .ok st' := by
  simp only [wfEntry] at hwf
  rw [if_pos huser] at hwf
  rcases hmv : (dictLookup kvs "message").getD (.dict []) with _ | _ | _ | _ | _ | mkvs <;>
    rw [hmv] at hwf <;> simp only [wfUserMessage] at hwf
  case dict =>
    unfold processUser
    simp only [pyGetD_dict, pyGet_dict, ok_bind]
    rw [hmv]
    simp only [pyGetD_dict, ok_bind]
    have main : ∀ blocks : List PyVal, blocks.all wfUserBlock = true →
        ∃ st', (do
          let acc ← blocks.foldlM processUserBlock
            (⟨[], st.res.tool_results⟩ : UAcc)
          let pum ← joinParts acc.parts
          (Except.ok { st with
            res := { st.res with tool_results := acc.tool_results },
            pending_user_message := pum,
            pending_user_timestamp := (dictLookup kvs "timestamp").getD .none }
           : Except String PState)) = .ok st' := by
      intro blocks hwb
      obtain ⟨acc, hacc, hp1⟩ := foldU_ok blocks [] st.res.tool_results hwb rfl
      rw [hacc]
      simp only [ok_bind]
      obtain ⟨pum, hpum⟩ := joinParts_ok hp1
      rw [hpum]
      exact ⟨_, rfl⟩
    revert hwf
    generalize (dictLookup mkvs "content").getD (PyVal.list []) = content
    intro hwf
    cases content <;> simp only [wfUserContent] at hwf
    case str s => exact ⟨_, rfl⟩
    case list xs =>
      simp only [pyIterate, ok_bind]
      exact main xs hwf
    case dict ckvs =>
      simp only [pyIterate, ok_bind]
      exact main _ hwf
    all_goals exact absurd hwf (by simp)
  all_goals exact absurd hwf (by simp)

/-- A well-formed entry processes successfully; the counter keys are
preserved, the counter sum grows by the tool calls of the appended turn,
and exactly assistant entries append one turn. -/
lemma processEntry_ok {st : PState} {v : PyVal}
    (hwf : wfEntry v = true)
    (hk : st.res.activity_counts.map Prod.fst = activityKinds) :
    ∃ st', processEntry st v = .ok st' ∧
      st'.res.activity_counts.map Prod.fst = activityKinds ∧
      sumCounts st'.res.activity_counts + totalToolCalls st.res.turns =
        sumCounts st.res.activity_counts + totalToolCalls st'.res.turns ∧
      st'.res.turns.length = st.res.turns.length +
        (if isAssistantEntry v then 1 else 0) := by
  cases v
  case dict kvs =>
    unfold processEntry
    simp only [pyGet_dict, ok_bind]
    have hassv : isAssistantEntry (PyVal.dict kvs) =
        isStrV ((dictLookup kvs "type").getD .none) "assistant" := rfl
    by_cases hsum : (isStrV ((dictLookup kvs "type").getD .none) "summary" &&
        isNoneV st.res.cwd) = true
    · rw [if_pos hsum]
      rw [Bool.and_eq_true] at hsum
      have hna : isAssistantEntry (PyVal.dict kvs) = false := by
        rw [hassv]
        rw [Bool.eq_false_iff]
        exact fun ha => absurd (isStrV_unique hsum.1 ha) (by decide)
      unfold processSummary
      simp only [pyGet_dict, ok_bind]
      exact ⟨_, rfl, hk, rfl, by rw [hna]; simp⟩
    · rw [if_neg hsum]
      by_cases huser : isStrV ((dictLookup kvs "type").getD .none) "user" = true
      · rw [if_pos huser]
        have hna : isAssistantEntry (PyVal.dict kvs) = false := by
          rw [hassv, Bool.eq_false_iff]
          exact fun ha => absurd (isStrV_unique huser ha) (by decide)
        obtain ⟨st', hst'⟩ := @processUser_ok st _ hwf huser
        have hshape := processUser_shape hst'
        refine ⟨st', hst', ?_, ?_, ?_⟩
        · rw [hshape]; exact hk
        · rw [hshape]
        · rw [hshape, hna]; simp
      · rw [if_neg huser]
        by_cases hass : isStrV ((dictLookup kvs "type").getD .none) "assistant" = true
        · rw [if_pos hass]
          obtain ⟨st', hst', hk1, t, hturns, hsum1⟩ :=
            processAssistant_ok hwf hass hk
          refine ⟨st', hst', hk1, ?_, ?_⟩
          · rw [hturns, totalToolCalls_append]
            omega
          · rw [hturns, hassv, hass]
            simp
        · rw [if_neg hass]
          have hna : isAssistantEntry (PyVal.dict kvs) = false := by
            rw [hassv, Bool.eq_false_iff]; exact hass
          exact ⟨st, rfl, hk, rfl, by rw [hna]; simp⟩
  all_goals exact absurd hwf (by simp [wfEntry])

/-- The parse loop over well-formed lines: turns count assistant entries
and the counter sum tracks the total tool calls. -/
lemma parseLoop_ok : ∀ (lines : List Line) (st : PState),
    lines.all wfLine = true →
    st.res.activity_counts.map Prod.fst = activityKinds →
    ∃ st', lines.foldlM processLine st = .ok st' ∧
      st'.res.activity_counts.map Prod.fst = activityKinds ∧
      sumCounts st'.res.activity_counts + totalToolCalls st.res.turns =
        sumCounts st.res.activity_counts + totalToolCalls st'.res.turns ∧
      st'.res.turns.length = st.res.turns.length + countAssistant lines := by
  intro lines
  induction lines with
  | nil =>
      intro st _ hk
      exact ⟨st, rfl, hk, rfl, by simp [countAssistant]⟩
  | cons l ls ih =>
      intro st hwf hk
      rw [List.all_cons, Bool.and_eq_true] at hwf
      obtain ⟨hl, hls⟩ := hwf
      cases l with
      | malformed =>
          rw [List.foldlM_cons,
            show processLine st Line.malformed = Except.ok st from rfl, ok_bind]
          obtain ⟨st', h', hk', hs', hl'⟩ := ih st hls hk
          refine ⟨st', h', hk', hs', ?_⟩
          rw [hl']
          simp [countAssistant, List.countP_cons]
      | entry v =>
          obtain ⟨st1, h1, hk1, hs1, hl1⟩ := @processEntry_ok st _ hl hk
          rw [List.foldlM_cons,
            show processLine st (Line.entry v) = processEntry st v from rfl,
            h1, ok_bind]
          obtain ⟨st', h', hk', hs', hl'⟩ := ih st1 hls hk1
          refine ⟨st', h', hk', by omega, ?_⟩
          have hcnt : countAssistant (Line.entry v :: ls) =
              countAssistant ls + (if isAssistantEntry v then 1 else 0) := by
            cases v <;>
              simp [countAssistant, List.countP_cons, isAssistantEntry]
          rw [hcnt]
          omega

/-! ## Claim C1 -/

/-- C1: parsing a log whose decodable entries are all well-formed yields
exactly one turn per assistant entry, and the sum of the activity counters
equals the total number of tool calls across all turns. -/
theorem c1_turns_and_activity_sum (lines : List Line)
    (hwf : lines.all wfLine = true) :
    ∃ r : ParseResult, parseLines lines = .ok r ∧
      r.turns.length = countAssistant lines ∧
      sumCounts r.activity_counts = totalToolCalls r.turns := by
  obtain ⟨st', h', hk', hs', hl'⟩ :=
    parseLoop_ok lines initState hwf (by rfl)
  refine ⟨st'.res, ?_, ?_, ?_⟩
  · unfold parseLines
    rw [h', ok_bind]
  · rw [hl']
    have h0 : initState.res.turns.length = 0 := rfl
    omega
  · have hz : sumCounts initState.res.activity_counts = 0 := by rfl
    have hz2 : totalToolCalls initState.res.turns = 0 := rfl
    omega

/-- A three-line log for the C1 witness: a user message, an assistant
response with one `Edit` tool call, and one malformed line. -/
def c1log : List Line :=
  [.entry (.dict [("type", .str "user"),
     ("timestamp", .str "2024-01-01T00:00:00Z"),
     ("message", .dict [("content", .str "fix bug")])]),
   .entry (.dict [("type", .str "assistant"),
     ("timestamp", .str "2024-01-01T00:00:05Z"),
     ("message", .dict [
        ("model", .str "m1"),
        ("usage", .dict [("input_tokens", .num 7)]),
        ("content", .list [
           .dict [("type", .str "text"), ("text", .str "done")],
           .dict [("type", .str "tool_use"), ("name", .str "Edit"),
                  ("id", .str "tu1"),
                  ("input", .dict [("file_path", .str "x")])]])])]),
   .malformed]

/-- C1 witness: the theorem applied to the concrete three-line log. -/
theorem c1_witness :
    ∃ r : ParseResult, parseLines c1log = .ok r ∧
      r.turns.length = countAssistant c1log ∧
      sumCounts r.activity_counts = totalToolCalls r.turns :=
  c1_turns_and_activity_sum c1log (by decide)

/-! ## Well-formedness for the trace assembler (claims C4 and C5) -/

/-- Is the value a dictionary? -/
def isDictPy : PyVal → Bool
  | .dict _ => true
  | _ => false

/-- One tool call that cannot make the assembler raise: a string-or-falsy
(and hence hashable) `tool_use_id`, a dictionary-or-falsy input, and — for
`TaskOutput` calls — a hashable-or-falsy `task_id` value. -/
def wfToolCall (tc : ToolCall) : Bool :=
  (!pyTruthy tc.tool_use_id || isStrPy tc.tool_use_id) &&
  (!pyTruthy tc.tool_input || isDictPy tc.tool_input) &&
  (if isStrV tc.tool_name "TaskOutput" then
     (match (if pyTruthy tc.tool_input then tc.tool_input else .dict []) with
      | .dict ikvs =>
          !pyTruthy ((dictLookup ikvs "task_id").getD .none) ||
            pyHashable ((dictLookup ikvs "task_id").getD .none)
      | _ => false)
   else true)

/-- One content block of a tool output on which the marker extraction
cannot raise. -/
def extractSafeBlock : PyVal → Bool
  | .dict bkvs =>
      if isStrV ((dictLookup bkvs "type").getD .none) "text" then
        isStrPy ((dictLookup bkvs "text").getD (.str ""))
      else true
  | _ => true

/-- A tool output value on which `extract_background_task_id` cannot
raise. -/
def extractSafe : PyVal → Bool
  | .list blocks => blocks.all extractSafeBlock
  | .dict kvs =>
      if isStrV ((dictLookup kvs "type").getD .none) "text" then
        isStrPy ((dictLookup kvs "text").getD (.str ""))
      else true
  | _ => true

/-- A turn that cannot make the assembler raise. -/
def wfTurn (t : Turn) : Bool :=
  tsSafe t.user_timestamp && tsSafe t.timestamp &&
  (!pyTruthy t.user_message || isStrPy t.user_message) &&
  t.tool_calls.all wfToolCall

/-- A parse result the assembler processes without raising. -/
def wfParsed (p : ParseResult) : Bool :=
  p.turns.all wfTurn && p.tool_results.all (fun kv => extractSafe kv.2)

/-- On safe values `parse_iso_timestamp` returns `tsOf`. -/
lemma parse_iso_tsOf {v : PyVal} (h : tsSafe v = true) :
    parse_iso_timestamp v = .ok (tsOf v) := by
  cases v
  case none => rfl
  case bool b =>
      cases b
      · rfl
      · exact absurd h (by decide)
  case str s =>
      unfold parse_iso_timestamp
      by_cases hs : (!pyTruthy (PyVal.str s)) = true
      · rw [if_pos hs]
        have hs0 : s = "" := by
          simp only [pyTruthy, Bool.not_eq_true', decide_eq_false_iff_not,
            not_not] at hs
          exact hs
        subst hs0
        rfl
      · rw [if_neg hs]
        rfl
  case num n =>
      simp only [tsSafe, Bool.or_eq_true] at h
      rcases h with h | h
      · unfold parse_iso_timestamp
        rw [if_pos h]
        rfl
      · exact absurd h (by simp)
  case list xs =>
      simp only [tsSafe, Bool.or_eq_true] at h
      rcases h with h | h
      · unfold parse_iso_timestamp
        rw [if_pos h]
        rfl
      · exact absurd h (by simp)
  case dict kvs =>
      simp only [tsSafe, Bool.or_eq_true] at h
      rcases h with h | h
      · unfold parse_iso_timestamp
        rw [if_pos h]
        rfl
      · exact absurd h (by simp)

/-- An `x or ""` coercion succeeds on string-or-falsy values. -/
lemma pyOrEmptyStr_ok {v : PyVal} (h : (!pyTruthy v || isStrPy v) = true) :
    ∃ s, pyOrEmptyStr v = .ok s := by
  unfold pyOrEmptyStr
  by_cases hv : pyTruthy v = true
  · rw [if_pos hv]
    rw [hv] at h
    simp only [Bool.not_true, Bool.false_or] at h
    cases v <;> simp [isStrPy] at h ⊢
  · rw [if_neg hv]
    exact ⟨"", rfl⟩

/-- The text parts collected from safe output blocks are all strings. -/
lemma extractParts_strings (blocks : List PyVal) :
    ∀ acc : List PyVal, blocks.all extractSafeBlock = true →
    acc.all isStrPy = true →
    (blocks.foldl
      (fun acc b =>
        match b with
        | PyVal.str s => acc ++ [PyVal.str s]
        | PyVal.dict kvs =>
            if isStrV ((dictLookup kvs "type").getD .none) "text" then
              acc ++ [(dictLookup kvs "text").getD (.str "")]
            else acc
        | _ => acc) acc).all isStrPy = true := by
  induction blocks with
  | nil => intro acc _ hacc; exact hacc
  | cons b bs ih =>
      intro acc hwf hacc
      rw [List.all_cons, Bool.and_eq_true] at hwf
      obtain ⟨hb, hbs⟩ := hwf
      rw [List.foldl_cons]
      apply ih _ hbs
      cases b
      case str s =>
          rw [List.all_append]
          simp [hacc, isStrPy]
      case dict kvs =>
          simp only [extractSafeBlock] at hb
          show (if isStrV ((dictLookup kvs "type").getD PyVal.none) "text" then
                  acc ++ [(dictLookup kvs "text").getD (PyVal.str "")]
                else acc).all isStrPy = true
          by_cases ht : isStrV ((dictLookup kvs "type").getD PyVal.none) "text" = true
          · rw [if_pos ht] at hb ⊢
            rw [List.all_append]
            simp [hacc, hb]
          · rw [if_neg ht]
            exact hacc
      all_goals exact hacc

/-- Definitional unfolding of `extract_background_task_id` on a list of
content blocks. -/
lemma extract_bg_list (blocks : List PyVal) :
    extract_background_task_id (.list blocks) =
      (pyJoin (blocks.foldl
        (fun acc b =>
          match b with
          | .str s => acc ++ [PyVal.str s]
          | .dict kvs =>
              if isStrV ((dictLookup kvs "type").getD .none) "text" then
                acc ++ [(dictLookup kvs "text").getD (.str "")]
              else acc
          | _ => acc) [])).bind (fun s => .ok (findMarker s.data)) := rfl

/-- Marker extraction cannot raise on safe tool outputs. -/
lemma extract_bg_ok {v : PyVal} (h : extractSafe v = true) :
    ∃ r, extract_background_task_id v = .ok r := by
  cases v
  case list blocks =>
      simp only [extractSafe] at h
      have hall := extractParts_strings blocks [] h rfl
      obtain ⟨s, hs⟩ := pyJoin_ok hall
      refine ⟨findMarker s.data, ?_⟩
      rw [extract_bg_list, hs]
      rfl
  case dict kvs =>
      simp only [extractSafe] at h
      unfold extract_background_task_id
      by_cases ht : isStrV ((dictLookup kvs "type").getD PyVal.none) "text" = true
      · rw [if_pos ht] at h
        simp only [ht, if_true]
        rcases hv : (dictLookup kvs "text").getD (.str "") with _ | b | n | s | xs | m
        · rw [hv] at h; exact absurd h (by simp [isStrPy])
        · rw [hv] at h; exact absurd h (by simp [isStrPy])
        · rw [hv] at h; exact absurd h (by simp [isStrPy])
        · exact ⟨findMarker s.data, rfl⟩
        · rw [hv] at h; exact absurd h (by simp [isStrPy])
        · rw [hv] at h; exact absurd h (by simp [isStrPy])
      · simp only [if_neg ht]
        exact ⟨Option.none, rfl⟩
  all_goals exact ⟨_, rfl⟩

/-! ## Claim C5: start- and end-time resolution of the per-turn loop -/

/-- The start and end time of a generation-create event (`none` for trace
and span events). -/
def genTimes : LfEvent → Option (Time × Time)
  | .generationCreate b => some (b.start_time, b.end_time)
  | _ => Option.none

/-- SPEC-SIDE definition (amended wording of claim C5): each turn's start
time is (a) its own user timestamp, else (b) the previous turn's end time,
else (c) the fallback `ft`; its end time is its assistant timestamp, else
its start time; and the running previous end time is updated after every
turn. -/
def specResolveLoop (ft : Time) :
    Option Time → List (Option Time × Option Time) → List (Time × Time)
  | _, [] => []
  | prev, (uts, ats) :: rest =>
      let start := uts.getD (prev.getD ft)
      let stop := ats.getD start
      (start, stop) :: specResolveLoop ft (some stop) rest

/-- SPEC-SIDE definition (amended wording of claim C5): the per-turn
start and end times of a session, the fallback being the session's first
parsable **user** timestamp when one exists and the wall clock `now`
otherwise. -/
def specStartEndTimes (ts : List (Option Time × Option Time))
    (firstUser : Option Time) (now : Time) : List (Time × Time) :=
  specResolveLoop (firstUser.getD now) Option.none ts

/-- `specResolveLoop` unfolds on a cons cell. -/
lemma specResolveLoop_cons (ft : Time) (prev uts ats : Option Time)
    (rest : List (Option Time × Option Time)) :
    specResolveLoop ft prev ((uts, ats) :: rest) =
      (uts.getD (prev.getD ft), ats.getD (uts.getD (prev.getD ft))) ::
        specResolveLoop ft (some (ats.getD (uts.getD (prev.getD ft)))) rest := rfl

/-- `pure` into the `Except` monad, as a rewrite rule. -/
@[simp] lemma pure_ok {α : Type} (a : α) :
    (pure a : Except String α) = .ok a := rfl

/-- A timestamp-safe value is string-or-falsy. -/
lemma tsSafe_strOrFalsy {v : PyVal} (h : tsSafe v = true) :
    (!pyTruthy v || isStrPy v) = true := by
  cases v <;> exact h

/-- `List.foldlM` over `Except` unfolds on a cons cell. -/
lemma foldlM_cons_E {α β : Type} (f : β → α → Except String β) (b : β)
    (a : α) (l : List α) :
    (a :: l).foldlM f b = f b a >>= fun b2 => l.foldlM f b2 := rfl

/-- `List.findSome?` unfolds on a cons cell. -/
lemma findSome?_cons_eq {α β : Type} (f : α → Option β) (a : α) (l : List α) :
    (a :: l).findSome? f =
      (match f a with | some b => some b | Option.none => l.findSome? f) := rfl

/-- A pure shadow of one step of the preliminary scan (lines 606-620). -/
def scanStep (acc : ScanAcc) (t : Turn) : ScanAcc :=
  let user_ts := tsOf t.user_timestamp
  let assistant_ts := tsOf t.timestamp
  let acc1 :=
    if user_ts.isSome && acc.first_timestamp.isNone then
      { acc with first_timestamp := user_ts } else acc
  let acc2 :=
    if assistant_ts.isSome then { acc1 with last_timestamp := assistant_ts }
    else acc1
  let acc3 :=
    if pyTruthy t.user_message && acc2.first_user_message.isNone then
      { acc2 with first_user_message := some t.user_message } else acc2
  if pyTruthy t.text_content then
    { acc3 with last_assistant_text := some t.text_content } else acc3

/-- On timestamp-safe turns the scan step is the pure shadow. -/
lemma scanTurn_eq (acc : ScanAcc) (t : Turn)
    (h1 : tsSafe t.user_timestamp = true) (h2 : tsSafe t.timestamp = true) :
    scanTurn acc t = .ok (scanStep acc t) := by
  unfold scanTurn scanStep
  simp only [parse_iso_tsOf h1, parse_iso_tsOf h2, ok_bind]

/-- The scan step only replaces an absent `first_timestamp`, and only with
the turn's own parsable user timestamp. -/
lemma scanStep_first (acc : ScanAcc) (t : Turn) :
    (scanStep acc t).first_timestamp =
      (if (tsOf t.user_timestamp).isSome && acc.first_timestamp.isNone then
         tsOf t.user_timestamp
       else acc.first_timestamp) := by
  unfold scanStep
  simp only [apply_ite ScanAcc.first_timestamp]
  simp

/-- The preliminary scan succeeds on well-formed turns, and its
`first_timestamp` is the first parsable **user** timestamp of the session
(the accumulator's value winning when already present). -/
lemma scanLoop_first (turns : List Turn) :
    ∀ acc : ScanAcc, turns.all wfTurn = true →
    ∃ acc2, turns.foldlM scanTurn acc = .ok acc2 ∧
      acc2.first_timestamp =
        (match acc.first_timestamp with
         | some f => some f
         | Option.none => turns.findSome? (fun t => tsOf t.user_timestamp)) := by
  induction turns with
  | nil =>
      intro acc _
      refine ⟨acc, rfl, ?_⟩
      rcases h : acc.first_timestamp with _ | f <;> rfl
  | cons t rest ih =>
      intro acc hwf
      rw [List.all_cons, Bool.and_eq_true] at hwf
      obtain ⟨ht, hrest⟩ := hwf
      have hts : tsSafe t.user_timestamp = true ∧ tsSafe t.timestamp = true := by
        simp only [wfTurn, Bool.and_eq_true] at ht
        exact ⟨ht.1.1.1, ht.1.1.2⟩
      obtain ⟨acc2, hacc2, hfirst⟩ := ih (scanStep acc t) hrest
      refine ⟨acc2, ?_, ?_⟩
      · rw [foldlM_cons_E, scanTurn_eq acc t hts.1 hts.2, ok_bind, hacc2]
      · rw [hfirst, scanStep_first, findSome?_cons_eq]
        rcases haf : acc.first_timestamp with _ | f
        · rcases hu : tsOf t.user_timestamp with _ | u <;>
            simp [haf, hu]
        · simp [haf]

/-- A value drawn from the tool-results table (or `None` for a missing
key) is extraction-safe whenever every stored value is. -/
lemma dictFind_safe {m : List (PyVal × PyVal)}
    (hm : m.all (fun kv => extractSafe kv.2) = true) (k : PyVal) :
    extractSafe (dictFind m k) = true := by
  unfold dictFind
  rcases hf : m.find? (fun kv => keyEq kv.1 k) with _ | kv
  · rw [hf]
    rfl
  · rw [hf]
    have hmem := List.mem_of_find?_eq_some hf
    exact List.all_eq_true.mp hm kv hmem

/-- The background-detection step never raises when the tool output is
extraction-safe and the tool input is dictionary-or-falsy. -/
lemma bgStep_ok (tname tinput tid : PyVal) (tkind generation_id : String)
    (start_time : Time) (out : PyVal) (meta0 : List (String × PyVal))
    (pend : List (String × PendingTask))
    (hsafe : extractSafe out = true)
    (hB : (!pyTruthy tinput || isDictPy tinput) = true) :
    ∃ meta1 pend1,
      bgStep tname tinput tid tkind generation_id start_time out meta0 pend
        = .ok (meta1, pend1) := by
  by_cases hbash : (isStrV tname "Bash" && pyTruthy out) = true
  · obtain ⟨r, hr⟩ := extract_bg_ok hsafe
    rcases r with _ | b
    · exact ⟨meta0, pend, by simp [bgStep, hbash, hr]⟩
    · by_cases hti : pyTruthy tinput = true
      · rw [hti] at hB
        simp only [Bool.not_true, Bool.false_or] at hB
        rcases tinput with _ | _ | _ | _ | _ | ikvs <;>
          simp only [isDictPy, Bool.false_eq_true] at hB
        exact ⟨meta0 ++ [("is_background_start", PyVal.bool true),
                         ("background_task_id", PyVal.str b)],
               pendingInsert pend b
                 ⟨tid, generation_id, tkind, tname, start_time,
                  (dictLookup ikvs "command").getD .none⟩,
               by simp [bgStep, hbash, hr, hti]⟩
      · exact ⟨meta0 ++ [("is_background_start", PyVal.bool true),
                         ("background_task_id", PyVal.str b)],
               pendingInsert pend b
                 ⟨tid, generation_id, tkind, tname, start_time, PyVal.none⟩,
               by simp [bgStep, hbash, hr, hti]⟩
  · exact ⟨meta0, pend, by simp [bgStep, hbash]⟩

/-- `extract_task_output_info` never raises on dictionary-or-falsy input,
and — under the `wfToolCall` guard — the task id it returns is
falsy-or-hashable. -/
lemma extract_ok (tname tinput : PyVal)
    (hB : (!pyTruthy tinput || isDictPy tinput) = true)
    (hC : (if isStrV tname "TaskOutput" then
             (match (if pyTruthy tinput then tinput else .dict []) with
              | .dict ikvs =>
                  !pyTruthy ((dictLookup ikvs "task_id").getD .none) ||
                    pyHashable ((dictLookup ikvs "task_id").getD .none)
              | _ => false)
           else true) = true) :
    ∃ task_id blk, extract_task_output_info tname tinput = .ok (task_id, blk) ∧
      (!pyTruthy task_id || pyHashable task_id) = true := by
  rcases hq : isStrV tname "TaskOutput" with _ | _
  · exact ⟨.none, .bool false, by simp [extract_task_output_info, hq], by decide⟩
  · simp only [hq, eq_self_iff_true, if_true] at hC
    by_cases hti : pyTruthy tinput = true
    · rw [hti] at hB
      simp only [Bool.not_true, Bool.false_or] at hB
      rcases tinput with _ | _ | _ | _ | _ | ikvs <;>
        simp only [isDictPy, Bool.false_eq_true] at hB
      simp only [hti, eq_self_iff_true, if_true] at hC
      refine ⟨(dictLookup ikvs "task_id").getD .none,
              (dictLookup ikvs "block").getD (.bool true), ?_, hC⟩
      simp [extract_task_output_info, hq, hti]
    · have hti0 : pyTruthy tinput = false := by
        revert hti; cases pyTruthy tinput <;> simp
      refine ⟨.none, .bool true, ?_, by decide⟩
      simp only [hti0, Bool.false_eq_true, if_false] at hC
      simp [extract_task_output_info, hq, hti0, dictLookup]

/-- The background-completion step never raises on a falsy-or-hashable
task id, and only ever appends an umbrella **span** to the event list. -/
lemma finStep_ok (trace_id : String) (end_time : Time)
    (task_id blk : PyVal) (evs : List LfEvent)
    (meta : List (String × PyVal)) (pend : List (String × PendingTask))
    (hok : (!pyTruthy task_id || pyHashable task_id) = true) :
    ∃ ev2 meta2 pend2,
      finStep trace_id end_time task_id blk evs meta pend
        = .ok (ev2, meta2, pend2) ∧
      ev2.filterMap genTimes = evs.filterMap genTimes := by
  by_cases hcond : (pyTruthy task_id && pyTruthy blk) = true
  · have hcond2 := hcond
    rw [Bool.and_eq_true] at hcond2
    obtain ⟨htid, hblk⟩ := hcond2
    rw [htid] at hok
    simp only [Bool.not_true, Bool.false_or] at hok
    rcases task_id with _ | b | n | tid | _ | _
    · exact absurd htid (by decide)
    · exact ⟨evs, meta, pend, by simp [finStep, hcond], rfl⟩
    · exact ⟨evs, meta, pend, by simp [finStep, hcond], rfl⟩
    · rcases hpl : pendingLookup pend tid with _ | pt
      · exact ⟨evs, meta, pend, by simp [finStep, hcond, hpl], rfl⟩
      · refine ⟨evs ++ [create_background_umbrella_span tid pt end_time
                  trace_id pt.generation_id],
                meta ++ [("is_background_completion", PyVal.bool true),
                         ("background_task_id", PyVal.str tid),
                         ("background_wall_time_seconds",
                          PyVal.num (end_time - pt.start_time))],
                pendingErase pend tid, ?_, ?_⟩
        · simp [finStep, hcond, hpl]
        · simp [create_background_umbrella_span, genTimes, List.filterMap_append]
    · exact absurd hok (by simp [pyHashable])
    · exact absurd hok (by simp [pyHashable])
  · exact ⟨evs, meta, pend, by simp [finStep, hcond], rfl⟩

/-- Processing one well-formed tool call never raises and only appends
span events: the generation-time projection of the event list is
unchanged. -/
lemma processToolCall_ok (trace_id : String) (tool_results : List (PyVal × PyVal))
    (generation_id : String) (start_time end_time : Time)
    (s : SpanLoopState) (tc : ToolCall)
    (hwf : wfToolCall tc = true)
    (hres : tool_results.all (fun kv => extractSafe kv.2) = true) :
    ∃ s2, processToolCall trace_id tool_results generation_id start_time end_time
        s tc = .ok s2 ∧
      s2.events.filterMap genTimes = s.events.filterMap genTimes := by
  obtain ⟨tname, tinput, tid, tkind⟩ := tc
  simp only [wfToolCall, Bool.and_eq_true] at hwf
  obtain ⟨⟨hA, hB⟩, hC⟩ := hwf
  by_cases hid : pyTruthy tid = true
  · rw [hid] at hA
    simp only [Bool.not_true, Bool.false_or] at hA
    rcases tid with _ | _ | _ | sid | _ | _ <;>
      simp only [isStrPy, Bool.false_eq_true] at hA
    obtain ⟨meta1, pend1, hbg⟩ := bgStep_ok tname tinput (.str sid) tkind
      generation_id start_time (dictFind tool_results (.str sid))
      [("activity_kind", PyVal.str tkind), ("tool_use_id", PyVal.str sid)]
      s.pending (dictFind_safe hres _) hB
    obtain ⟨task_id, blk, hext, hfal⟩ := extract_ok tname tinput hB hC
    obtain ⟨ev2, meta2, pend2, hfin, hev⟩ := finStep_ok trace_id end_time
      task_id blk s.events meta1 pend1 hfal
    refine ⟨⟨ev2 ++ [LfEvent.spanCreate
        { id := some (generate_deterministic_id sid ""),
          trace_id := trace_id,
          parent_observation_id := generation_id,
          name := tkind ++ "/" ++ pyStr tname,
          input := tinput,
          output := dictFind tool_results (.str sid),
          start_time := start_time,
          end_time := end_time,
          meta := meta2 }], pend2⟩, ?_, ?_⟩
    · simp only [processToolCall, outputStep, spanIdStep, hid, eq_self_iff_true,
        if_true, pyHashable, pure_ok, ok_bind, hbg, hext, hfin]
    · show (ev2 ++ [_]).filterMap genTimes = _
      rw [List.filterMap_append, hev]
      simp [genTimes]
  · have hid0 : pyTruthy tid = false := by
      revert hid; cases pyTruthy tid <;> simp
    obtain ⟨meta1, pend1, hbg⟩ := bgStep_ok tname tinput tid tkind
      generation_id start_time PyVal.none
      [("activity_kind", PyVal.str tkind), ("tool_use_id", tid)]
      s.pending rfl hB
    obtain ⟨task_id, blk, hext, hfal⟩ := extract_ok tname tinput hB hC
    obtain ⟨ev2, meta2, pend2, hfin, hev⟩ := finStep_ok trace_id end_time
      task_id blk s.events meta1 pend1 hfal
    refine ⟨⟨ev2 ++ [LfEvent.spanCreate
        { id := Option.none,
          trace_id := trace_id,
          parent_observation_id := generation_id,
          name := tkind ++ "/" ++ pyStr tname,
          input := tinput,
          output := PyVal.none,
          start_time := start_time,
          end_time := end_time,
          meta := meta2 }], pend2⟩, ?_, ?_⟩
    · simp only [processToolCall, outputStep, spanIdStep, hid0, Bool.false_eq_true,
        if_false, pure_ok, ok_bind, hbg, hext, hfin]
    · show (ev2 ++ [_]).filterMap genTimes = _
      rw [List.filterMap_append, hev]
      simp [genTimes]

/-- The per-turn span loop never raises on well-formed tool calls and
leaves the generation-time projection of the event list unchanged. -/
lemma spanLoop_ok (trace_id : String) (tool_results : List (PyVal × PyVal))
    (generation_id : String) (start_time end_time : Time)
    (tcs : List ToolCall) :
    ∀ s : SpanLoopState, tcs.all wfToolCall = true →
    tool_results.all (fun kv => extractSafe kv.2) = true →
    ∃ s2, tcs.foldlM
        (processToolCall trace_id tool_results generation_id start_time end_time)
        s = .ok s2 ∧
      s2.events.filterMap genTimes = s.events.filterMap genTimes := by
  induction tcs with
  | nil => intro s _ _; exact ⟨s, rfl, rfl⟩
  | cons tc rest ih =>
      intro s hwf hres
      rw [List.all_cons, Bool.and_eq_true] at hwf
      obtain ⟨htc, hrest⟩ := hwf
      obtain ⟨s1, hs1, he1⟩ := processToolCall_ok trace_id tool_results
        generation_id start_time end_time s tc htc hres
      obtain ⟨s2, hs2, he2⟩ := ih s1 hrest hres
      refine ⟨s2, ?_, ?_⟩
      · rw [foldlM_cons_E, hs1, ok_bind, hs2]
      · rw [he2, he1]

/-- Processing one well-formed turn: the loop state gains exactly one
generation event whose start time is the turn's user timestamp, else the
previous end time, else the fallback, and whose end time is the assistant
timestamp, else the start time; the running previous end time becomes that
end time. -/
lemma processTurn_ok (trace_id : String) (tool_results : List (PyVal × PyVal))
    (ft : Time) (i : Nat) (st : TurnLoopState) (t : Turn)
    (hwf : wfTurn t = true)
    (hres : tool_results.all (fun kv => extractSafe kv.2) = true) :
    ∃ st2, processTurn trace_id tool_results ft i st t = .ok st2 ∧
      st2.prev_end_time =
        some ((tsOf t.timestamp).getD
          ((tsOf t.user_timestamp).getD (st.prev_end_time.getD ft))) ∧
      st2.events.filterMap genTimes =
        st.events.filterMap genTimes ++
          [((tsOf t.user_timestamp).getD (st.prev_end_time.getD ft),
            (tsOf t.timestamp).getD
              ((tsOf t.user_timestamp).getD (st.prev_end_time.getD ft)))] := by
  simp only [wfTurn, Bool.and_eq_true] at hwf
  obtain ⟨⟨⟨h1, h2⟩, h3⟩, h4⟩ := hwf
  obtain ⟨p1, hp1⟩ := pyOrEmptyStr_ok (tsSafe_strOrFalsy h1)
  obtain ⟨p2, hp2⟩ := pyOrEmptyStr_ok (tsSafe_strOrFalsy h2)
  obtain ⟨p3, hp3⟩ := pyOrEmptyStr_ok h3
  obtain ⟨sst, hsst, hev⟩ := spanLoop_ok trace_id tool_results
    (generate_deterministic_id (p1 ++ "|" ++ p2 ++ "|" ++ p3) "")
    ((tsOf t.user_timestamp).getD (st.prev_end_time.getD ft))
    ((tsOf t.timestamp).getD ((tsOf t.user_timestamp).getD (st.prev_end_time.getD ft)))
    t.tool_calls ⟨[], st.pending⟩ h4 hres
  refine ⟨⟨st.events ++ LfEvent.generationCreate
      { id := generate_deterministic_id (p1 ++ "|" ++ p2 ++ "|" ++ p3) "",
        trace_id := trace_id,
        name := "llm-response-" ++ toString i,
        model := t.model,
        input := t.user_message,
        output := t.text_content,
        start_time := (tsOf t.user_timestamp).getD (st.prev_end_time.getD ft),
        end_time := (tsOf t.timestamp).getD
          ((tsOf t.user_timestamp).getD (st.prev_end_time.getD ft)),
        tool_call_count := t.tool_calls.length } :: sst.events,
      some ((tsOf t.timestamp).getD
        ((tsOf t.user_timestamp).getD (st.prev_end_time.getD ft))),
      sst.pending⟩, ?_, ?_, ?_⟩
  · unfold processTurn
    simp only [parse_iso_tsOf h1, parse_iso_tsOf h2, ok_bind, hp1, hp2, hp3, hsst]
  · rfl
  · simp only [List.filterMap_nil] at hev
    show (st.events ++ _ :: sst.events).filterMap genTimes = _
    rw [List.filterMap_append, List.filterMap_cons]
    simp only [genTimes, hev]

/-- The per-turn loop realises the amended resolution policy: its
generation events carry exactly the spec-resolved start and end times. -/
lemma turnsLoop_spec (trace_id : String) (tool_results : List (PyVal × PyVal))
    (ft : Time) (turns : List Turn) :
    ∀ (i : Nat) (st : TurnLoopState), turns.all wfTurn = true →
    tool_results.all (fun kv => extractSafe kv.2) = true →
    ∃ st2, turnsLoop trace_id tool_results ft i st turns = .ok st2 ∧
      st2.events.filterMap genTimes =
        st.events.filterMap genTimes ++
          specResolveLoop ft st.prev_end_time
            (turns.map (fun t => (tsOf t.user_timestamp, tsOf t.timestamp))) := by
  induction turns with
  | nil => intro i st _ _; exact ⟨st, rfl, by simp [specResolveLoop]⟩
  | cons t rest ih =>
      intro i st hwf hres
      rw [List.all_cons, Bool.and_eq_true] at hwf
      obtain ⟨ht, hrest⟩ := hwf
      obtain ⟨st1, hst1, hprev, hev1⟩ := processTurn_ok trace_id tool_results
        ft i st t ht hres
      obtain ⟨st2, hst2, hev2⟩ := ih (i + 1) st1 hrest hres
      refine ⟨st2, ?_, ?_⟩
      · unfold turnsLoop
        rw [hst1, ok_bind, hst2]
      · rw [hev2, hev1, hprev, List.map_cons, specResolveLoop_cons,
          List.append_assoc]
        rfl

/-- Claim C5 — COUNTEREXAMPLE INPUT: a session whose single turn has no
user timestamp but a parsable assistant timestamp. -/
def c5turn : Turn :=
  { user_message := .none, user_timestamp := .none, model := .none,
    text_content := .none, usage := ⟨0, 0, 0, 0⟩, tool_calls := [],
    timestamp := .str "2024-01-02T03:04:05+00:00" }

/-- The parse result holding just `c5turn`. -/
def c5parsed : ParseResult :=
  { cwd := .none, git_branch := .none, model := .none, turns := [c5turn],
    tool_results := [], input_tokens := 0, output_tokens := 0,
    cache_read_input_tokens := 0, cache_creation_input_tokens := 0,
    activity_counts := [] }

/-- Claim C5, counterexample: rule (c) of the claim says the third
fallback is "the first timestamp seen anywhere in the session" and rule
(d) says the wall clock is used "only when the session contains no
parsable timestamps at all".  In a session whose single turn has no user
timestamp but an assistant timestamp of 2024-01-02T03:04:05+00:00 (epoch
second 1704164645), the turn's start time nevertheless resolves to the
wall clock `now` (here 999): `first_timestamp` is collected from user
timestamps only (lines 610-611), so assistant timestamps do not stop the
wall-clock fallback. -/
theorem c5_counterexample :
    tsOf c5turn.timestamp = some 1704164645 ∧
    (send_to_langfuse_events "sid" c5parsed 999).map
      (fun r => r.1.filterMap genTimes) = .ok [(999, 1704164645)] ∧
    (999 : Time) ≠ 1704164645 := by
  refine ⟨by decide, ?_, by decide⟩
  rfl

/-- Claim C5 (amended): for every well-formed parse result, the assembler
emits one generation event per turn whose start time is resolved by
trying, in order, (a) the turn's own user timestamp, (b) the end time of
the immediately preceding turn, (c) the first parsable **user** timestamp
of the session, (d) the wall clock `now`, used whenever the session
contains no parsable **user** timestamps; the end time is the turn's
assistant timestamp, else its start time; and the running previous end
time is updated after every turn. -/
theorem c5_start_end_policy (session_id : String) (parsed : ParseResult)
    (now : Time) (h : wfParsed parsed = true) :
    ∃ evs pending,
      send_to_langfuse_events session_id parsed now = .ok (evs, pending) ∧
      evs.filterMap genTimes =
        specStartEndTimes
          (parsed.turns.map (fun t => (tsOf t.user_timestamp, tsOf t.timestamp)))
          (parsed.turns.findSome? (fun t => tsOf t.user_timestamp)) now := by
  simp only [wfParsed, Bool.and_eq_true] at h
  obtain ⟨hturns, hres⟩ := h
  obtain ⟨acc, hacc, hfirst⟩ := scanLoop_first parsed.turns
    ⟨Option.none, Option.none, Option.none, Option.none⟩ hturns
  obtain ⟨st2, hloop, hev⟩ := turnsLoop_spec session_id parsed.tool_results
    (acc.first_timestamp.getD now) parsed.turns 0
    ⟨[LfEvent.traceCreate
        { id := session_id,
          input := acc.first_user_message.getD .none,
          output := acc.last_assistant_text.getD .none,
          timestamp := acc.first_timestamp.getD now }],
      Option.none, []⟩ hturns hres
  refine ⟨st2.events, st2.pending, ?_, ?_⟩
  · unfold send_to_langfuse_events
    simp only [hacc, ok_bind, hloop]
  · rw [hev, hfirst]
    rfl

/-- Claim C5, witness: the amended policy applied to the concrete
one-turn session of the counterexample. -/
theorem c5_witness :
    wfParsed c5parsed = true ∧
    ∃ evs pending,
      send_to_langfuse_events "sid" c5parsed 999 = .ok (evs, pending) ∧
      evs.filterMap genTimes =
        specStartEndTimes
          (c5parsed.turns.map (fun t => (tsOf t.user_timestamp, tsOf t.timestamp)))
          (c5parsed.turns.findSome? (fun t => tsOf t.user_timestamp)) 999 :=
  ⟨by decide, c5_start_end_policy "sid" c5parsed 999 (by decide)⟩

/-! ## Claim C4: the background-task correlator -/

/-- The record id of a generation-create event (`none` otherwise). -/
def genIdOf : LfEvent → Option String
  | .generationCreate b => some b.id
  | _ => Option.none

/-- The claim-relevant data of an umbrella span — a span whose metadata
carries the `is_background` flag: its record id, parent observation and
time interval.  `none` for every other event. -/
def umbrellaData : LfEvent → Option (Option String × String × Time × Time)
  | .spanCreate b =>
      if b.meta.any (fun kv => kv.1 = "is_background") then
        some (b.id, b.parent_observation_id, b.start_time, b.end_time)
      else Option.none
  | _ => Option.none

/-- Matching a literal at the head of itself-plus-rest always succeeds. -/
lemma litPrefix?_self_append (p rest : List Char) :
    litPrefix? p (p ++ rest) = some rest := by
  induction p with
  | nil => rfl
  | cons c cs ih => simp [litPrefix?, ih]

/-- An alphanumeric character is not Python whitespace. -/
lemma alnum_not_space (c : Char) (h : c.isAlphanum = true) : pySpace c = false := by
  have hd : ¬(c = ' ' ∨ c = '\t' ∨ c = '\n' ∨ c = '\r' ∨ c = '\x0b' ∨ c = '\x0c') := by
    intro hc
    rcases hc with hc | hc | hc | hc | hc | hc <;> subst hc <;>
      exact absurd h (by decide)
  unfold pySpace
  exact decide_eq_false hd

/-- Whitespace-stripping is the identity on an all-alphanumeric run. -/
lemma dropWhile_alnum (l : List Char) (h : l.all Char.isAlphanum = true) :
    l.dropWhile pySpace = l := by
  cases l with
  | nil => rfl
  | cons c cs =>
      rw [List.all_cons, Bool.and_eq_true] at h
      rw [List.dropWhile_cons]
      simp [alnum_not_space c h.1]

/-- The greedy alphanumeric run captures an all-alphanumeric tail whole. -/
lemma takeWhile_alnum (l : List Char) (h : l.all Char.isAlphanum = true) :
    l.takeWhile Char.isAlphanum = l := by
  induction l with
  | nil => rfl
  | cons c cs ih =>
      rw [List.all_cons, Bool.and_eq_true] at h
      rw [List.takeWhile_cons]
      simp [h.1, ih h.2]

/-- The marker pattern matches at the start of the marker text and captures
a non-empty all-alphanumeric id whole. -/
lemma markerAt?_marker (tid : String) (htid : tid ≠ "")
    (hal : tid.data.all Char.isAlphanum = true) :
    markerAt? (markerChars ++ (' ' :: tid.data)) = some tid := by
  have hdata : tid.data ≠ [] := by
    intro hh
    exact htid (congrArg String.mk hh)
  have hie : tid.data.isEmpty = false := by
    rcases hcc : tid.data with _ | ⟨c, cs⟩
    · exact absurd hcc hdata
    · rfl
  have hdrop : List.dropWhile pySpace (' ' :: tid.data) = tid.data := by
    rw [List.dropWhile_cons, if_pos (by decide : pySpace ' ' = true)]
    exact dropWhile_alnum tid.data hal
  unfold markerAt?
  rw [litPrefix?_self_append]
  simp only [hdrop, takeWhile_alnum tid.data hal, hie, Bool.false_eq_true,
    if_false]

/-- `re.search` of the marker pattern on the full marker text finds the
id. -/
lemma findMarker_marker (tid : String) (htid : tid ≠ "")
    (hal : tid.data.all Char.isAlphanum = true) :
    findMarker (("Command running in background with ID: " ++ tid).data)
      = some tid := by
  have hdata : ("Command running in background with ID: " ++ tid).data
      = markerChars ++ (' ' :: tid.data) := by
    rw [String.data_append]
    rw [show ("Command running in background with ID: ".data : List Char)
          = markerChars ++ [' '] from rfl, List.append_assoc]
    rfl
  have hcons : markerChars ++ (' ' :: tid.data)
      = 'C' :: ("ommand running in background with ID:".data
          ++ (' ' :: tid.data)) := rfl
  rw [hdata, hcons]
  show (match markerAt? ('C' :: ("ommand running in background with ID:".data
      ++ (' ' :: tid.data))) with
    | some r => some r
    | Option.none => findMarker ("ommand running in background with ID:".data
        ++ (' ' :: tid.data))) = some tid
  rw [← hcons, markerAt?_marker tid htid hal]

/-- Marker extraction on a plain-string tool output holding the marker. -/
lemma extract_bg_marker (tid : String) (htid : tid ≠ "")
    (hal : tid.data.all Char.isAlphanum = true) :
    extract_background_task_id
      (.str ("Command running in background with ID: " ++ tid))
      = .ok (some tid) := by
  show Except.ok (findMarker
    (("Command running in background with ID: " ++ tid).data)) = _
  rw [findMarker_marker tid htid hal]

/-- The `Bash` tool call of the C4 scenario: it starts the background
task. -/
def c4bash (cmd tuId ak : String) : ToolCall :=
  ⟨.str "Bash", .dict [("command", .str cmd)], .str tuId, ak⟩

/-- First scenario turn: a user message with a timestamp, answered by an
assistant entry carrying the `Bash` call. -/
def c4turn1 (su1 sa1 cmd tuId ak : String) : Turn :=
  ⟨.none, .str su1, .none, .none, ⟨0, 0, 0, 0⟩, [c4bash cmd tuId ak], .str sa1⟩

/-- The `TaskOutput` retrieval of the C4 scenario; `extra` holds the
optional `block` key. -/
def c4taskTc (tid tuId2 ak2 : String) (extra : List (String × PyVal)) : ToolCall :=
  ⟨.str "TaskOutput", .dict (("task_id", .str tid) :: extra), .str tuId2, ak2⟩

/-- Second scenario turn: the later assistant entry retrieving the
background task. -/
def c4turn2 (sa2 tid tuId2 ak2 : String) (extra : List (String × PyVal)) : Turn :=
  ⟨.none, .none, .none, .none, ⟨0, 0, 0, 0⟩, [c4taskTc tid tuId2 ak2 extra],
   .str sa2⟩

/-- The two-turn C4 session: the tool-results table maps the `Bash` call's
id to the background-start marker text. -/
def c4parsed (su1 sa1 cmd tuId ak sa2 tid tuId2 ak2 : String)
    (extra : List (String × PyVal)) : ParseResult :=
  ⟨.none, .none, .none,
   [c4turn1 su1 sa1 cmd tuId ak, c4turn2 sa2 tid tuId2 ak2 extra],
   [(.str tuId, .str ("Command running in background with ID: " ++ tid))],
   0, 0, 0, 0, []⟩

/-- Claim C4: a background-start marker ("Command running in background
with ID: <id>") later followed by a **blocking** `TaskOutput` retrieval of
the same id yields exactly one umbrella span — parented under the
generation that originally started the task, spanning the registered
start time `T0` to the completion time `T3` (so its duration is the
wall-clock completion minus the registered start), with a record id
deterministically derived from the origin tool-use id and the background
task id — after which the task is no longer pending; a retrieval with an
explicit `block = false` yields no umbrella span and leaves the task
pending with its registered data intact. -/
theorem c4_background_umbrella
    (sid su1 sa1 cmd tuId ak sa2 tid tuId2 ak2 : String) (now T0 T1 T3 : Time)
    (h0 : fromisoformat? (replaceZ su1) = some T0)
    (h1 : fromisoformat? (replaceZ sa1) = some T1)
    (h3 : fromisoformat? (replaceZ sa2) = some T3)
    (htu : tuId ≠ "") (htu2 : tuId2 ≠ "") (hne : tuId ≠ tuId2)
    (htid : tid ≠ "") (hal : tid.data.all Char.isAlphanum = true) :
    (∃ evs pend,
      send_to_langfuse_events sid
        (c4parsed su1 sa1 cmd tuId ak sa2 tid tuId2 ak2 []) now
        = .ok (evs, pend) ∧
      pend = [] ∧
      ∃ g2 : String,
        evs.filterMap genIdOf =
          [generate_deterministic_id (su1 ++ "|" ++ sa1 ++ "|") "", g2] ∧
        evs.filterMap umbrellaData =
          [(some (generate_deterministic_id
              ("umbrella_" ++ tuId ++ "_" ++ tid) ""),
            generate_deterministic_id (su1 ++ "|" ++ sa1 ++ "|") "",
            T0, T3)]) ∧
    (∃ evs pend,
      send_to_langfuse_events sid
        (c4parsed su1 sa1 cmd tuId ak sa2 tid tuId2 ak2
          [("block", PyVal.bool false)]) now = .ok (evs, pend) ∧
      evs.filterMap umbrellaData = [] ∧
      pend = [(tid,
        ⟨.str tuId, generate_deterministic_id (su1 ++ "|" ++ sa1 ++ "|") "",
         ak, .str "Bash", T0, .str cmd⟩)]) := by
  have h00 : fromisoformat? (replaceZ "") = Option.none := rfl
  have hsu1 : su1 ≠ "" := by
    intro h
    rw [h, h00] at h0
    exact Option.noConfusion h0
  have hsa1 : sa1 ≠ "" := by
    intro h
    rw [h, h00] at h1
    exact Option.noConfusion h1
  have hsa2 : sa2 ≠ "" := by
    intro h
    rw [h, h00] at h3
    exact Option.noConfusion h3
  have hmark : ("Command running in background with ID: " ++ tid) ≠ "" := by
    intro h
    have h2 := congrArg String.data h
    rw [String.data_append,
      show ("Command running in background with ID: ".data : List Char)
        = 'C' :: "ommand running in background with ID: ".data from rfl,
      List.cons_append] at h2
    exact List.noConfusion h2
  have hne2 : tuId2 ≠ tuId := fun h => hne h.symm
  have hext := extract_bg_marker tid htid hal
  have hPnone : parse_iso_timestamp PyVal.none = .ok Option.none := rfl
  have hP1 : parse_iso_timestamp (PyVal.str su1) = .ok (some T0) := by
    unfold parse_iso_timestamp
    rw [if_neg (by simp [pyTruthy, hsu1])]
    show Except.ok (fromisoformat? (replaceZ su1)) = _
    rw [h0]
  have hP2 : parse_iso_timestamp (PyVal.str sa1) = .ok (some T1) := by
    unfold parse_iso_timestamp
    rw [if_neg (by simp [pyTruthy, hsa1])]
    show Except.ok (fromisoformat? (replaceZ sa1)) = _
    rw [h1]
  have hP3 : parse_iso_timestamp (PyVal.str sa2) = .ok (some T3) := by
    unfold parse_iso_timestamp
    rw [if_neg (by simp [pyTruthy, hsa2])]
    show Except.ok (fromisoformat? (replaceZ sa2)) = _
    rw [h3]
  constructor
  · refine
      ⟨[LfEvent.traceCreate { id := sid, input := PyVal.none, output := PyVal.none, timestamp := T0 },
       LfEvent.generationCreate
         { id := generate_deterministic_id (su1 ++ "|" ++ sa1 ++ "|") "", trace_id := sid,
           name := "llm-response-" ++ toString 0, model := PyVal.none, input := PyVal.none,
           output := PyVal.none, start_time := T0, end_time := T1, tool_call_count := 1 },
       LfEvent.spanCreate
         { id := some (generate_deterministic_id tuId ""), trace_id := sid,
           parent_observation_id := generate_deterministic_id (su1 ++ "|" ++ sa1 ++ "|") "",
           name := ak ++ "/" ++ "Bash", input := PyVal.dict [("command", PyVal.str cmd)],
           output := PyVal.str ("Command running in background with ID: " ++ tid),
           start_time := T0, end_time := T1,
           meta :=
             [("activity_kind", PyVal.str ak), ("tool_use_id", PyVal.str tuId),
              ("is_background_start", PyVal.bool true), ("background_task_id", PyVal.str tid)] },
       LfEvent.generationCreate
         { id := generate_deterministic_id ("|" ++ sa2 ++ "|") "", trace_id := sid,
           name := "llm-response-" ++ toString 1, model := PyVal.none, input := PyVal.none,
           output := PyVal.none, start_time := T1, end_time := T3, tool_call_count := 1 },
       LfEvent.spanCreate
         { id := some (generate_deterministic_id ("umbrella_" ++ tuId ++ "_" ++ tid) ""),
           trace_id := sid,
           parent_observation_id := generate_deterministic_id (su1 ++ "|" ++ sa1 ++ "|") "",
           name := "BACKGROUND/" ++ ak ++ "/" ++ "Bash",
           input := PyVal.dict [("background_task_id", PyVal.str tid)],
           output := PyVal.none, start_time := T0, end_time := T3,
           meta :=
             [("activity_kind", PyVal.str ak), ("background_task_id", PyVal.str tid),
              ("bash_tool_use_id", PyVal.str tuId), ("is_background", PyVal.bool true)] },
       LfEvent.spanCreate
         { id := some (generate_deterministic_id tuId2 ""), trace_id := sid,
           parent_observation_id := generate_deterministic_id ("|" ++ sa2 ++ "|") "",
           name := ak2 ++ "/" ++ "TaskOutput", input := PyVal.dict [("task_id", PyVal.str tid)],
           output := PyVal.none, start_time := T1, end_time := T3,
           meta :=
             [("activity_kind", PyVal.str ak2), ("tool_use_id", PyVal.str tuId2),
              ("is_background_completion", PyVal.bool true), ("background_task_id", PyVal.str tid),
              ("background_wall_time_seconds", PyVal.num (T3 - T0))] }],
       [], ?_, rfl, generate_deterministic_id ("|" ++ sa2 ++ "|") "", ?_, ?_⟩
    · simp [send_to_langfuse_events, c4parsed, c4turn1, c4turn2, c4bash,
        c4taskTc, foldlM_cons_E, scanTurn, turnsLoop, processTurn,
        processToolCall, outputStep, bgStep, finStep, spanIdStep,
        extract_task_output_info, pendingInsert, pendingErase, pendingLookup,
        dictFind, dictLookup, keyEq, pyOrEmptyStr, pyGet, pyGetD, pyStr,
        isStrV, isDictPy, pyHashable, pyTruthy, create_background_umbrella_span,
        hP1, hP2, hP3, hPnone, hext, hsu1, hsa1, hsa2, htu, htu2, htid,
        hne, hne2, hmark]
    · simp [genIdOf]
    · simp [umbrellaData]
  · refine
      ⟨[LfEvent.traceCreate { id := sid, input := PyVal.none, output := PyVal.none, timestamp := T0 },
       LfEvent.generationCreate
         { id := generate_deterministic_id (su1 ++ "|" ++ sa1 ++ "|") "", trace_id := sid,
           name := "llm-response-" ++ toString 0, model := PyVal.none, input := PyVal.none,
           output := PyVal.none, start_time := T0, end_time := T1, tool_call_count := 1 },
       LfEvent.spanCreate
         { id := some (generate_deterministic_id tuId ""), trace_id := sid,
           parent_observation_id := generate_deterministic_id (su1 ++ "|" ++ sa1 ++ "|") "",
           name := ak ++ "/" ++ "Bash", input := PyVal.dict [("command", PyVal.str cmd)],
           output := PyVal.str ("Command running in background with ID: " ++ tid),
           start_time := T0, end_time := T1,
           meta :=
             [("activity_kind", PyVal.str ak), ("tool_use_id", PyVal.str tuId),
              ("is_background_start", PyVal.bool true), ("background_task_id", PyVal.str tid)] },
       LfEvent.generationCreate
         { id := generate_deterministic_id ("|" ++ sa2 ++ "|") "", trace_id := sid,
           name := "llm-response-" ++ toString 1, model := PyVal.none, input := PyVal.none,
           output := PyVal.none, start_time := T1, end_time := T3, tool_call_count := 1 },
       LfEvent.spanCreate
         { id := some (generate_deterministic_id tuId2 ""), trace_id := sid,
           parent_observation_id := generate_deterministic_id ("|" ++ sa2 ++ "|") "",
           name := ak2 ++ "/" ++ "TaskOutput",
           input := PyVal.dict [("task_id", PyVal.str tid), ("block", PyVal.bool false)],
           output := PyVal.none, start_time := T1, end_time := T3,
           meta := [("activity_kind", PyVal.str ak2), ("tool_use_id", PyVal.str tuId2)] }],
       [(tid, ⟨.str tuId, generate_deterministic_id (su1 ++ "|" ++ sa1 ++ "|") "",
         ak, .str "Bash", T0, .str cmd⟩)], ?_, ?_, rfl⟩
    · simp [send_to_langfuse_events, c4parsed, c4turn1, c4turn2, c4bash,
        c4taskTc, foldlM_cons_E, scanTurn, turnsLoop, processTurn,
        processToolCall, outputStep, bgStep, finStep, spanIdStep,
        extract_task_output_info, pendingInsert, pendingErase, pendingLookup,
        dictFind, dictLookup, keyEq, pyOrEmptyStr, pyGet, pyGetD, pyStr,
        isStrV, isDictPy, pyHashable, pyTruthy, create_background_umbrella_span,
        hP1, hP2, hP3, hPnone, hext, hsu1, hsa1, hsa2, htu, htu2, htid,
        hne, hne2, hmark]
    · simp [umbrellaData]

/-- Claim C4, witness: the correlator scenario at concrete ids, command
and timestamps (2024-01-02, epoch seconds 1704164645 / 1704164646 /
1704164705). -/
theorem c4_witness :
    (∃ evs pend,
      send_to_langfuse_events "sess"
        (c4parsed "2024-01-02T03:04:05+00:00" "2024-01-02T03:04:06+00:00"
          "sleep 100 &" "toolu01" "OTHER" "2024-01-02T03:05:05+00:00"
          "abc123" "toolu02" "OTHER" []) 0 = .ok (evs, pend) ∧
      pend = [] ∧
      ∃ g2 : String,
        evs.filterMap genIdOf =
          [generate_deterministic_id
            ("2024-01-02T03:04:05+00:00" ++ "|" ++ "2024-01-02T03:04:06+00:00"
              ++ "|") "", g2] ∧
        evs.filterMap umbrellaData =
          [(some (generate_deterministic_id
              ("umbrella_" ++ "toolu01" ++ "_" ++ "abc123") ""),
            generate_deterministic_id
              ("2024-01-02T03:04:05+00:00" ++ "|" ++ "2024-01-02T03:04:06+00:00"
                ++ "|") "",
            1704164645, 1704164705)]) ∧
    (∃ evs pend,
      send_to_langfuse_events "sess"
        (c4parsed "2024-01-02T03:04:05+00:00" "2024-01-02T03:04:06+00:00"
          "sleep 100 &" "toolu01" "OTHER" "2024-01-02T03:05:05+00:00"
          "abc123" "toolu02" "OTHER" [("block", PyVal.bool false)]) 0
        = .ok (evs, pend) ∧
      evs.filterMap umbrellaData = [] ∧
      pend = [("abc123",
        ⟨.str "toolu01",
         generate_deterministic_id
           ("2024-01-02T03:04:05+00:00" ++ "|" ++ "2024-01-02T03:04:06+00:00"
             ++ "|") "",
         "OTHER", .str "Bash", 1704164645, .str "sleep 100 &"⟩)]) :=
  c4_background_umbrella "sess" "2024-01-02T03:04:05+00:00"
    "2024-01-02T03:04:06+00:00" "sleep 100 &" "toolu01" "OTHER"
    "2024-01-02T03:05:05+00:00" "abc123" "toolu02" "OTHER"
    0 1704164645 1704164646 1704164705
    (by decide) (by decide) (by decide) (by decide) (by decide) (by decide)
    (by decide) (by decide)

end LangfuseHook




